import Mathlib

/-!
# Reward service: ledger and referral redemption

A shallow embedding of `reward-service/data/models.go` (the repository layer over the
`users` table), of the handlers of `reward-service/cmd2/api/handlers.go` that call it, of the
token functions of `reward-service/cmd2/api/middleware.go` and of the validator of
`reward-service/internal/token/validator.go`.

* The `users` table is a list of rows (`data.User`).  Every SQL statement of the source is a
  function on that list.
* A statement can fail (driver error, timeout, integer out of range, cancelled context).  A
  call receives `fault : Nat → Option GoError`: `fault k = some e` means that the `k`-th
  statement issued by the call fails with the driver error `e`.  A failed statement changes
  no row (a single Postgres statement is atomic).
* `int` columns and Go `int` values are `Int`; an addition that leaves the column range is a
  failed statement in Postgres, so it is covered by `fault`.
* `time.Now()` is an explicit argument.
* Library functions the code calls are modelled where the claims need their behaviour
  (`encoding/base64`, `strconv.Atoi`, the parser and the claims check of the `jwt` library);
  the cryptographic primitives (`bcrypt`, the keyed hash of the `HS` methods) and the random
  source are arguments.
-/

namespace RewardService

/-- Go `error` values that are not nil.  `sentinel` is a package-level `errors.New` variable,
identified by its qualified name; `external` is an error produced by a library
(`database/sql`, the driver, `bcrypt`); `Errorf` is `fmt.Errorf(format, err)` with a `%w`
verb and `err != nil`; `ErrorfNil` is the same call with `err == nil`, which wraps nothing. -/
inductive GoError where
  | sentinel (name : String) (text : String)
  | external (text : String)
  | Errorf (format : String) (wrapped : GoError)
  | ErrorfNil (format : String)
  deriving DecidableEq, Repr

/-- The call `fmt.Errorf(format, err)` for an `err` that may be nil. -/
def fmtErrorf (format : String) (err : Option GoError) : GoError :=
  match err with
  | some e => GoError.Errorf format e
  | none => GoError.ErrorfNil format

/-- The chain test `errors.Is(err, target)`: `err` is `target`, or wraps an error that is. -/
def errorsIs : GoError → GoError → Bool
  | GoError.Errorf format wrapped, target =>
      decide (GoError.Errorf format wrapped = target) || errorsIs wrapped target
  | e, target => decide (e = target)

/-- Outcome of the statements issued by one call: `fault k` is the driver error of the
`k`-th statement, `none` when it succeeds. -/
abbrev Faults := Nat → Option GoError

/-- The run in which every statement succeeds. -/
def noFault : Faults := fun _ => none

namespace data

/-! ## `data/errors.go` -/

def ErrUserNotFound : GoError := GoError.sentinel "data.ErrUserNotFound" "user does not exist"
def ErrAddPointsFailed : GoError :=
  GoError.sentinel "data.ErrAddPointsFailed" "failed to add points"
def ErrFetchUser : GoError := GoError.sentinel "data.ErrFetchUser" "failed to fetch user"
def ErrScanUser : GoError := GoError.sentinel "data.ErrScanUser" "failed to scan user"
def ErrPasswordLength : GoError :=
  GoError.sentinel "data.ErrPasswordLength" "password must be at least 8 characters long"
def ErrNoRecord : GoError := GoError.sentinel "data.ErrNoRecord" "no record provided"

/-! ## `data/models.go` -/

def passMinLength : Nat := 8
def bcryptCost : Nat := 12

/-- One row of the `users` table (`type User struct`).  Times are instants on a discrete
clock. -/
structure User where
  ID : Int
  Email : String
  FirstName : String
  LastName : String
  Password : String
  Active : Int
  Score : Int
  Referrer : String
  CreatedAt : Nat
  UpdatedAt : Nat
  deriving DecidableEq, Repr

/-- The `users` table. -/
abbrev Table := List User

/-- The value `sql.ErrNoRows`, returned by `Row.Scan` when the query selects no row. -/
def sqlErrNoRows : GoError := GoError.sentinel "sql.ErrNoRows" "sql: no rows in result set"

/-- The helper `execQuery`: run a statement with effect `effect`; a driver error is wrapped and
the table is left as it was. -/
def execQuery (fault : Option GoError) (effect : Table → Table) (t : Table) :
    Table × Option GoError :=
  match fault with
  | some err => (t, some (GoError.Errorf "failed to execute query : %w" err))
  | none => (effect t, none)

/-- Query `SELECT EXISTS(SELECT 1 FROM users WHERE id = $1)`. -/
def existsID (t : Table) (id : Int) : Bool :=
  t.any (fun r => r.ID == id)

/-- Query `SELECT EXISTS(SELECT 1 FROM users WHERE referrer = $1)`. -/
def existsReferrer (t : Table) (referrer : String) : Bool :=
  t.any (fun r => r.Referrer == referrer)

/-- Query `SELECT referrer FROM users WHERE id = $1` scanned by `QueryRow`: the first selected
row, `sql.ErrNoRows` when there is none. -/
def selectReferrer (fault : Option GoError) (t : Table) (id : Int) : Except GoError String :=
  match fault with
  | some err => Except.error err
  | none =>
    match t.find? (fun r => r.ID == id) with
    | some r => Except.ok r.Referrer
    | none => Except.error sqlErrNoRows

/-- Statement `update users set score = score + $1, updatedAt = $2 where id = $3`. -/
def updateAddPoints (point : Int) (now : Nat) (id : Int) (t : Table) : Table :=
  t.map (fun r => if r.ID = id then { r with Score := r.Score + point, UpdatedAt := now } else r)

/-- Statement `UPDATE users SET score = score + 100 WHERE referrer = $1`. -/
def updateReferrerScore (referrer : String) (t : Table) : Table :=
  t.map (fun r => if r.Referrer = referrer then { r with Score := r.Score + 100 } else r)

/-- Statement `UPDATE users SET score = score + 25 WHERE id = $1`. -/
def updateRedeemerScore (id : Int) (t : Table) : Table :=
  t.map (fun r => if r.ID = id then { r with Score := r.Score + 25 } else r)

/-- The method `UserExists`. -/
def UserExists (fault : Option GoError) (t : Table) (id : Int) : Bool × Option GoError :=
  match fault with
  | some err =>
      (false, some (GoError.Errorf "failed to check user existence (id: %d): %w" err))
  | none => (existsID t id, none)

/-- The method `AddPoints`: statement 0 is the existence query, statement 1 the update. -/
def AddPoints (fault : Faults) (now : Nat) (t : Table) (id point : Int) :
    Table × Option GoError :=
  match UserExists (fault 0) t id with
  | (_, some err) => (t, some err)
  | (idExists, none) =>
    if !idExists then (t, some ErrUserNotFound)
    else
      match execQuery (fault 1) (updateAddPoints point now id) t with
      | (t1, some _) => (t1, some ErrAddPointsFailed)
      | (t1, none) => (t1, none)

/-- The method `RedeemReferrer`.  Statements, in order: 0 the referrer existence query, 1 the
user existence query, 2 the query for the user's own referrer, 3 the referrer credit, 4 the
redeemer credit. -/
def RedeemReferrer (fault : Faults) (t : Table) (id : Int) (referrer : String) :
    Table × Option GoError :=
  match fault 0 with
  | some err => (t, some (GoError.Errorf "failed to check referrer: %w" err))
  | none =>
    if !existsReferrer t referrer then
      (t, some (fmtErrorf "referrer does not exists: %w" none))
    else
      match UserExists (fault 1) t id with
      | (_, some err) => (t, some (GoError.Errorf "user does not exists: %w" err))
      | (idExists, none) =>
        if !idExists then (t, some (fmtErrorf "user does not exists: %w" none))
        else
          match selectReferrer (fault 2) t id with
          | Except.error err =>
              (t, some (GoError.Errorf "failed to get user's referrer: %w" err))
          | Except.ok sameCheck =>
            if sameCheck == referrer then
              (t, some (fmtErrorf "User cannot redeem for their own referrer: %w" none))
            else
              match execQuery (fault 3) (updateReferrerScore referrer) t with
              | (t1, some err) =>
                  (t1, some (GoError.Errorf "failed to update referrer's score: %w" err))
              | (t1, none) =>
                match execQuery (fault 4) (updateRedeemerScore id) t1 with
                | (t2, some err) =>
                    (t2, some (GoError.Errorf
                      "failed to update score for who redeemed referrer: %w" err))
                | (t2, none) => (t2, none)

/-- Result of `Insert`: the table afterwards, the returned id and error, and the arguments of
every call made to `bcrypt.GenerateFromPassword`. -/
structure InsertOutcome where
  table : Table
  id : Int
  err : Option GoError
  hashCalls : List (String × Nat)
  deriving DecidableEq, Repr

/-- The method `Insert`.  `generate` is `bcrypt.GenerateFromPassword`; `len(user.Password)` is
the length of the password in bytes; `createdAt` and `updatedAt` are the two readings of
`time.Now()`; `nextID` is the id the table assigns to the new row (`returning id`);
statement 0 is the insertion. -/
def Insert (generate : String → Nat → Except GoError String) (fault : Faults)
    (createdAt updatedAt : Nat) (nextID : Int) (t : Table) (user : User) : InsertOutcome :=
  if user.Password.utf8ByteSize < passMinLength then
    { table := t, id := 0, err := some ErrPasswordLength, hashCalls := [] }
  else
    match generate user.Password bcryptCost with
    | Except.error err =>
        { table := t, id := 0, err := some (GoError.Errorf "failed to hash password: %w" err),
          hashCalls := [(user.Password, bcryptCost)] }
    | Except.ok hashedPassword =>
      match fault 0 with
      | some err =>
          { table := t, id := 0,
            err := some (GoError.Errorf "failed to insert new user: %w" err),
            hashCalls := [(user.Password, bcryptCost)] }
      | none =>
          { table := t ++ [{ ID := nextID, Email := user.Email, FirstName := user.FirstName,
                             LastName := user.LastName, Password := hashedPassword,
                             Active := user.Active, Score := user.Score,
                             Referrer := user.Referrer, CreatedAt := createdAt,
                             UpdatedAt := updatedAt }],
            id := nextID, err := none, hashCalls := [(user.Password, bcryptCost)] }

/-- The value `bcrypt.ErrMismatchedHashAndPassword`. -/
def bcryptErrMismatchedHashAndPassword : GoError :=
  GoError.sentinel "bcrypt.ErrMismatchedHashAndPassword"
    "crypto/bcrypt: hashedPassword is not the hash of the given password"

/-- The method `PasswordMatches`.  `compare` is `bcrypt.CompareHashAndPassword` (hash first,
plaintext second), `none` standing for a nil error. -/
def PasswordMatches (compare : String → String → Option GoError) (plainText : String)
    (user : User) : Bool × Option GoError :=
  match compare user.Password plainText with
  | some err =>
    if errorsIs err bcryptErrMismatchedHashAndPassword then (false, none)
    else (false, some (GoError.Errorf "failed to compare passwords: %w" err))
  | none => (true, none)

end data

namespace api

/-! ## `cmd2/api/errors.go` -/

def ErrConvertID : GoError :=
  GoError.sentinel "main.ErrConvertID" "couldn't convert id string to int"
def ErrPasswordLength : GoError :=
  GoError.sentinel "main.ErrPasswordLength" "password must be at least 8 characters long"
def ErrFetchUsers : GoError := GoError.sentinel "main.ErrFetchUsers" "couldn't fetch all users"
def ErrUserNotExist : GoError :=
  GoError.sentinel "main.ErrUserNotExist" "user with this email does not exist"
def ErrInvalidPassword : GoError := GoError.sentinel "main.ErrInvalidPassword" "invalid password"
def ErrAddPoints : GoError :=
  GoError.sentinel "main.ErrAddPoints" "couldn't add points to the user"
def ErrFetchUser : GoError := GoError.sentinel "main.ErrFetchUser" "couldn't fetch user"
def ErrRedeemReferrer : GoError :=
  GoError.sentinel "main.ErrRedeemReferrer" "couldn't redeem referrer"
def ErrDeleteUser : GoError := GoError.sentinel "main.ErrDeleteUser" "couldn't delete user"
def ErrSingleJSON : GoError :=
  GoError.sentinel "main.ErrSingleJSON" "body must have only a single JSON value"

/-! ## `cmd2/api/handlers.go` -/

def atLeastPassLength : Nat := 8
def StatusAccepted : Nat := 202
def StatusBadRequest : Nat := 400

/-- Body of a response: the envelope `jsonResponse`, carrying an error or a message. -/
inductive Body where
  | error (err : GoError)
  | message (text : String)
  deriving DecidableEq, Repr

/-- One write to the `http.ResponseWriter`: a status and a body. -/
structure Write where
  status : Nat
  body : Body
  deriving DecidableEq, Repr

/-- What a handler wrote to its `http.ResponseWriter`, in order. -/
abbrev Response := List Write

/-- Status code of a response: the status of the first write, as the recorder of the tests
reads it. -/
def statusCode (w : Response) : Option Nat := w.head?.map Write.status

/-- Modelled from the spec: the helper `errorJSON` of the handlers, whose file is not among
the sources.  It writes the error envelope for `err` with the status it is given. -/
def errorJSON (w : Response) (err : GoError) (status : Nat) : Response :=
  w ++ [{ status := status, body := Body.error err }]

/-- Modelled from the spec: the helper `writeJSON` of the handlers, whose file is not among
the sources.  `failure` is the error it returns; when it is nil the payload has been written
with the given status, otherwise nothing has. -/
def writeJSON (failure : Option GoError) (w : Response) (status : Nat) (text : String) :
    Response × Option GoError :=
  match failure with
  | some err => (w, some err)
  | none => (w ++ [{ status := status, body := Body.message text }], none)

/-- The answers of `app.Repo`, the repository interface the handlers call. -/
structure Repository where
  AddPoints : Int → Int → Option GoError
  GetAll : List data.User × Option GoError
  EmailCheck : String → Option data.User × Option GoError
  GetByEmail : String → Option data.User × Option GoError
  RedeemReferrer : Int → String → Option GoError
  GetOne : Int → Option data.User × Option GoError
  Update : data.User → Option GoError
  UpdateScore : data.User → Option GoError
  DeleteByID : Int → Option GoError
  Insert : data.User → Int × Option GoError
  PasswordMatches : String → data.User → Bool × Option GoError

/-- A call made on `app.Repo`. -/
inductive RepoCall where
  | AddPoints (id point : Int)
  | GetAll
  | EmailCheck (email : String)
  | GetByEmail (email : String)
  | RedeemReferrer (id : Int) (referrer : String)
  | GetOne (id : Int)
  | Update (user : data.User)
  | UpdateScore (user : data.User)
  | DeleteByID (id : Int)
  | Insert (user : data.User)
  | PasswordMatches (plainText : String) (user : data.User)
  deriving DecidableEq, Repr

/-- What a handler did: the response it wrote and the repository calls it made, in order. -/
structure HandlerResult where
  response : Response
  calls : List RepoCall
  deriving DecidableEq, Repr

/-- The request payload of `Registrate`. -/
structure RegistratePayload where
  Email : String
  FirstName : String
  LastName : String
  Password : String
  Active : Int
  Score : Int
  Referrer : String
  deriving DecidableEq, Repr

/-- The conversion `data.User(user)` of the value `Registrate` builds from its payload; the
fields it does not set are zero. -/
def RegistratePayload.toUser (p : RegistratePayload) : data.User :=
  { ID := 0, Email := p.Email, FirstName := p.FirstName, LastName := p.LastName,
    Password := p.Password, Active := p.Active, Score := p.Score, Referrer := p.Referrer,
    CreatedAt := 0, UpdatedAt := 0 }

/-- Text `fmt.Sprintf("Successfully created new user, id: %d", id)`. -/
def createdMessage (id : Int) : String :=
  "Successfully created new user, id: " ++ toString id

/-- The handler `Registrate`.  `body` is the outcome of `readJSON` on the request, `writeFault`
the error of the final `writeJSON`. -/
def Registrate (repo : Repository) (body : Except GoError RegistratePayload)
    (writeFault : Option GoError) : HandlerResult :=
  match body with
  | Except.error err => { response := errorJSON [] err StatusBadRequest, calls := [] }
  | Except.ok requestPayload =>
    if requestPayload.Password.utf8ByteSize < atLeastPassLength then
      { response := errorJSON [] ErrPasswordLength StatusBadRequest, calls := [] }
    else
      let user := requestPayload.toUser
      match repo.Insert user with
      | (_, some err) =>
          { response := errorJSON [] err StatusBadRequest, calls := [RepoCall.Insert user] }
      | (id, none) =>
        match writeJSON writeFault [] StatusAccepted (createdMessage id) with
        | (w, some err) =>
            { response := errorJSON w err StatusBadRequest, calls := [RepoCall.Insert user] }
        | (w, none) => { response := w, calls := [RepoCall.Insert user] }

end api

/-! ## Concrete tables and runs -/

namespace data

/-- Account A of the redemption scenario: referral code `ref-A`, score 0. -/
def userA : User :=
  { ID := 1, Email := "a@example.com", FirstName := "A", LastName := "", Password := "",
    Active := 1, Score := 0, Referrer := "ref-A", CreatedAt := 0, UpdatedAt := 0 }

/-- Account B of the redemption scenario: score 0, a referral code of its own. -/
def userB : User :=
  { ID := 2, Email := "b@example.com", FirstName := "B", LastName := "", Password := "",
    Active := 1, Score := 0, Referrer := "ref-B", CreatedAt := 0, UpdatedAt := 0 }

/-- The table of the redemption scenario. -/
def tableAB : Table := [userA, userB]

/-- A run in which the redeemer credit, statement 4 of `RedeemReferrer`, fails and every earlier
statement succeeds. -/
def failRedeemerCredit : Faults :=
  fun k => if k = 4 then some (GoError.external "context deadline exceeded") else none

/-- A run in which the existence query, statement 0, fails. -/
def failFirst : Faults :=
  fun k => if k = 0 then some (GoError.external "context deadline exceeded") else none

end data

namespace api

/-- A password of seven characters whose UTF-8 encoding has thirteen bytes. -/
def shortMultibyte : String := "пароль1"

/-- A registration payload with the given password. -/
def payloadWith (password : String) : RegistratePayload :=
  { Email := "test@example.com", FirstName := "John", LastName := "Doe", Password := password,
    Active := 1, Score := 0, Referrer := "" }

end api

/-! ## The library `github.com/golang-jwt/jwt`

The handlers import the module path without a major-version suffix, that is release 3.2 of the
library.  A token string is kept in decoded form: header algorithm, claims and signature
segment; the keyed hash behind the `HS` methods is the argument `hmac`. -/

namespace jwt

/-- A value of a claims map: a number with an integer value (a Go `int` before encoding, a JSON
number in a token), a string, or any other value. -/
inductive Value where
  | number (n : Int)
  | string (s : String)
  | other
  deriving DecidableEq, Repr

/-- The type `jwt.MapClaims`, as the list of its entries; the first entry of a key counts. -/
abbrev MapClaims := List (String × Value)

/-- A token string with three well-formed segments, decoded: the `alg` entry of the header when
it is a string, the claims, and the signature segment. -/
structure Compact where
  alg : Option String
  claims : MapClaims
  signature : String
  deriving DecidableEq, Repr

/-- A token string: one that `ParseUnverified` cannot split and decode, or a compact
serialization. -/
inductive TokenString where
  | malformed (raw : String)
  | compact (c : Compact)
  deriving DecidableEq, Repr

/-- What a signature covers: the first two segments, header and claims. -/
abbrev SigningInput := Option String × MapClaims

/-- The keyed hash of the `HS` methods: algorithm name, key and signing input give the signature
segment. -/
abbrev Hmac := String → String → SigningInput → String

/-- Number of binary digits of a natural number, by halving (`fuel` bounds the halvings). -/
def bitLengthAux : Nat → Nat → Nat
  | 0, _ => 0
  | fuel + 1, n => if n = 0 then 0 else bitLengthAux fuel (n / 2) + 1

def bitLength (n : Nat) : Nat := bitLengthAux n n

/-- The integer a JSON number denotes once decoded into a `float64`: the nearest value with a
53-bit significand, ties to the even significand.  Integers of magnitude below `2 ^ 53` are
kept exactly. -/
def float64 (n : Int) : Int :=
  let a := n.natAbs
  if a < 2 ^ 53 then n
  else
    let e := bitLength a - 53
    let q := a / 2 ^ e
    let r := a % 2 ^ e
    let half := 2 ^ (e - 1)
    let q1 := if half < r ∨ (r = half ∧ q % 2 = 1) then q + 1 else q
    if n < 0 then -((q1 * 2 ^ e : Nat) : Int) else ((q1 * 2 ^ e : Nat) : Int)

/-- The signing methods the library registers. -/
inductive Method where
  | HMAC (alg : String)
  | none
  | asymmetric (alg : String)
  deriving DecidableEq, Repr

/-- The method `Alg` of a signing method. -/
def Method.Alg : Method → String
  | Method.HMAC alg => alg
  | Method.none => "none"
  | Method.asymmetric alg => alg

def SigningMethodHS512 : Method := Method.HMAC "HS512"

/-- The lookup `GetSigningMethod`: the method registered under a name, if any. -/
def GetSigningMethod (alg : String) : Option Method :=
  if alg = "HS256" ∨ alg = "HS384" ∨ alg = "HS512" then some (Method.HMAC alg)
  else if alg = "none" then some Method.none
  else if alg ∈ ["RS256", "RS384", "RS512", "PS256", "PS384", "PS512",
      "ES256", "ES384", "ES512"] then some (Method.asymmetric alg)
  else Option.none

def ErrSignatureInvalid : GoError :=
  GoError.sentinel "jwt.ErrSignatureInvalid" "signature is invalid"
def ErrInvalidKeyType : GoError :=
  GoError.sentinel "jwt.ErrInvalidKeyType" "key is of invalid type"
def NoneSignatureTypeDisallowedError : GoError :=
  GoError.sentinel "jwt.NoneSignatureTypeDisallowedError"
    "'none' signature type is not allowed"

/-- The method `Verify` of a signing method, for a key that is a byte slice (both callers pass
`[]byte(secretKey)`): an `HS` method recomputes the keyed hash and compares; `none` and the
public-key methods reject such a key. -/
def Method.Verify (hmac : Hmac) (m : Method) (input : SigningInput) (signature : String)
    (key : String) : Option GoError :=
  match m with
  | Method.HMAC alg => if signature = hmac alg key input then Option.none
      else some ErrSignatureInvalid
  | Method.none => some NoneSignatureTypeDisallowedError
  | Method.asymmetric _ => some ErrInvalidKeyType

/-- The method `Sign` of a signing method, for a key that is a byte slice. -/
def Method.Sign (hmac : Hmac) (m : Method) (input : SigningInput) (key : String) :
    Except GoError String :=
  match m with
  | Method.HMAC alg => Except.ok (hmac alg key input)
  | Method.none => Except.error NoneSignatureTypeDisallowedError
  | Method.asymmetric _ => Except.error ErrInvalidKeyType

/-- The call `jwt.NewWithClaims(method, claims).SignedString(key)`. -/
def SignedString (hmac : Hmac) (method : Method) (claims : MapClaims) (key : String) :
    Except GoError TokenString :=
  match method.Sign hmac (some method.Alg, claims) key with
  | Except.error err => Except.error err
  | Except.ok sig =>
      Except.ok (TokenString.compact
        { alg := some method.Alg, claims := claims, signature := sig })

/-- The helper `verifyExp` of release 3.2: a zero claim counts as absent, and a token is still
good at the second of its expiry. -/
def verifyExp (exp now : Int) (required : Bool) : Bool :=
  if exp = 0 then !required else decide (now ≤ exp)

def verifyIat (iat now : Int) (required : Bool) : Bool :=
  if iat = 0 then !required else decide (iat ≤ now)

def verifyNbf (nbf now : Int) (required : Bool) : Bool :=
  if nbf = 0 then !required else decide (nbf ≤ now)

/-- A time claim of a decoded claims map, checked by `verify`: absent claims pass when not
required, numbers go through `float64` and `int64`, other values fail. -/
def verifyTimeClaim (verify : Int → Int → Bool → Bool) (m : MapClaims) (key : String)
    (cmp : Int) (req : Bool) : Bool :=
  match m.lookup key with
  | Option.none => !req
  | some (Value.number n) => verify (float64 n) cmp req
  | some _ => false

def MapClaims.VerifyExpiresAt (m : MapClaims) (cmp : Int) (req : Bool) : Bool :=
  verifyTimeClaim verifyExp m "exp" cmp req

def MapClaims.VerifyIssuedAt (m : MapClaims) (cmp : Int) (req : Bool) : Bool :=
  verifyTimeClaim verifyIat m "iat" cmp req

def MapClaims.VerifyNotBefore (m : MapClaims) (cmp : Int) (req : Bool) : Bool :=
  verifyTimeClaim verifyNbf m "nbf" cmp req

/-- The method `MapClaims.Valid` at the clock reading `now` (Unix seconds): the error of the
last check that fails, nil when all three pass. -/
def MapClaims.Valid (m : MapClaims) (now : Int) : Option GoError :=
  let e1 : Option GoError :=
    if m.VerifyExpiresAt now false then Option.none else some (GoError.external "Token is expired")
  let e2 : Option GoError :=
    if m.VerifyIssuedAt now false then e1 else some (GoError.external "Token used before issued")
  if m.VerifyNotBefore now false then e2 else some (GoError.external "Token is not valid yet")

/-- The `*ValidationError` the parser builds around the error of a key function.  Release 3.2
gives it no `Unwrap`, so it is an error of its own. -/
def unverifiable (_inner : GoError) : GoError :=
  GoError.external "jwt.ValidationError: token is unverifiable"

/-- The result of `Parse`: the claims and the `Valid` flag of the token, and the error. -/
structure Parsed where
  claims : MapClaims
  Valid : Bool
  err : Option GoError
  deriving DecidableEq, Repr

/-- The method `ParseWithClaims` of the default parser at the clock reading `now`.  `claims` is
the map the caller passes in, into which the claims of the token are decoded; `keyFunc`
receives the token, of which it can read the method.  A token that cannot be decoded, an
unknown or missing algorithm and a failing `keyFunc` end the parse; otherwise the claims are
validated, the signature is verified, and the token is valid when both succeed. -/
def ParseWithClaims (hmac : Hmac) (now : Int) (tokenString : TokenString) (claims : MapClaims)
    (keyFunc : Method → Except GoError String) : Parsed :=
  match tokenString with
  | TokenString.malformed _ =>
      { claims := claims, Valid := false,
        err := some (GoError.external "token contains an invalid number of segments") }
  | TokenString.compact c =>
    let decoded := c.claims ++ claims
    match c.alg with
    | Option.none =>
        { claims := decoded, Valid := false,
          err := some (GoError.external "signing method (alg) is unspecified.") }
    | some alg =>
      match GetSigningMethod alg with
      | Option.none =>
          { claims := decoded, Valid := false,
            err := some (GoError.external "signing method (alg) is unavailable.") }
      | some method =>
        match keyFunc method with
        | Except.error err =>
            { claims := decoded, Valid := false, err := some (unverifiable err) }
        | Except.ok key =>
          match method.Verify hmac (c.alg, c.claims) c.signature key with
          | some err => { claims := decoded, Valid := false, err := some err }
          | Option.none =>
            match decoded.Valid now with
            | some err => { claims := decoded, Valid := false, err := some err }
            | Option.none => { claims := decoded, Valid := true, err := Option.none }

/-- The function `jwt.Parse`: `ParseWithClaims` into an empty `MapClaims`. -/
def Parse (hmac : Hmac) (now : Int) (tokenString : TokenString)
    (keyFunc : Method → Except GoError String) : Parsed :=
  ParseWithClaims hmac now tokenString [] keyFunc

end jwt

namespace api

/-! ## `cmd2/api/middleware.go` -/

def StatusUnauthorized : Nat := 401
def StatusInternalServerError : Nat := 500

/-- Duration `accessTokenExpTime`, fifteen minutes, in seconds. -/
def accessTokenExpTime : Nat := 15 * 60

/-- The function `generateAccessToken` at the clock reading `now` (Unix seconds). -/
def generateAccessToken (hmac : jwt.Hmac) (now : Nat) (userID : Int) (secretKey : String) :
    Except GoError jwt.TokenString :=
  let expirationTime : Int := ((now + accessTokenExpTime : Nat) : Int)
  let claims : jwt.MapClaims :=
    [("sub", jwt.Value.number userID), ("exp", jwt.Value.number expirationTime)]
  match jwt.SignedString hmac jwt.SigningMethodHS512 claims secretKey with
  | Except.error err => Except.error (GoError.Errorf "error during signing the token: %w" err)
  | Except.ok tokenString => Except.ok tokenString

/-- The value `http.ErrNoCookie`. -/
def httpErrNoCookie : GoError :=
  GoError.sentinel "http.ErrNoCookie" "http: named cookie not present"

/-- What the handler returned by `authTokenMiddleware` does with a request: it answers
401 through `errorJSON` with the error it holds (possibly nil), or it calls the next handler
with the user id stored in the request context. -/
inductive AuthOutcome where
  | unauthorized (err : Option GoError)
  | next (userID : Int)
  deriving DecidableEq, Repr

/-- The handler built by `authTokenMiddleware(secretKey)` at the clock reading `now`; `cookie`
is the value of the `accessToken` cookie of the request, if it has one.  The claims map
passed to the parser holds the context key under `sub`, which is not a number. -/
def authTokenMiddleware (hmac : jwt.Hmac) (secretKey : String) (now : Nat)
    (cookie : Option jwt.TokenString) : AuthOutcome :=
  match cookie with
  | none => AuthOutcome.unauthorized (some httpErrNoCookie)
  | some tokenString =>
    let token := jwt.ParseWithClaims hmac (now : Int) tokenString [("sub", jwt.Value.other)]
      (fun _ => Except.ok secretKey)
    if token.err.isSome || !token.Valid then AuthOutcome.unauthorized token.err
    else
      match token.claims.lookup "sub" with
      | some (jwt.Value.number n) => AuthOutcome.next (jwt.float64 n)
      | _ => AuthOutcome.unauthorized token.err

end api

namespace token

/-! ## `internal/token/validator.go` -/

/-- Modelled from the spec: the values of package `errormsg`, which is not among the sources.
`ErrTokenValidation` is the generic validation error. -/
def ErrTokenValidation : GoError := GoError.sentinel "errormsg.ErrTokenValidation" ""

/-- Modelled from the spec: see `ErrTokenValidation`. -/
def ErrInvalidToken : GoError := GoError.sentinel "errormsg.ErrInvalidToken" ""

/-- Modelled from the spec: see `ErrTokenValidation`. -/
def ErrUnexpectedSigningMethod : GoError :=
  GoError.sentinel "errormsg.ErrUnexpectedSigningMethod" ""

/-- The key function of `ValidateAccessToken`. -/
def keyFunc (SecretKey : String) (method : jwt.Method) : Except GoError String :=
  if method.Alg ≠ jwt.SigningMethodHS512.Alg then
    Except.error (GoError.Errorf "%w: %v" ErrUnexpectedSigningMethod)
  else Except.ok SecretKey

/-- The method `ValidateAccessToken` of a validator holding `SecretKey`, at the clock reading
`now`.  The claims of a parsed token always are a `MapClaims`. -/
def ValidateAccessToken (hmac : jwt.Hmac) (SecretKey : String) (now : Nat)
    (tokenString : jwt.TokenString) : Except GoError jwt.MapClaims :=
  let token := jwt.Parse hmac (now : Int) tokenString (keyFunc SecretKey)
  if token.err.isSome then Except.error ErrTokenValidation
  else if token.Valid then Except.ok token.claims
  else Except.error ErrInvalidToken

end token

namespace api

/-- A keyed hash for the concrete runs: the algorithm name and the key, joined. -/
def sampleHmac : jwt.Hmac := fun alg key _ => alg ++ ":" ++ key

end api

/-! ## The package `encoding/base64`

Byte slices are lists of numbers below 256; the encoded text is a string. -/

namespace base64

/-- The character of the standard alphabet for a 6-bit value. -/
def encodeChar (i : Nat) : Char :=
  if i < 26 then Char.ofNat (65 + i)
  else if i < 52 then Char.ofNat (97 + (i - 26))
  else if i < 62 then Char.ofNat (48 + (i - 52))
  else if i = 62 then '+'
  else '/'

/-- The 6-bit value of a character of the standard alphabet. -/
def decodeChar (c : Char) : Option Nat :=
  let n := c.toNat
  if 65 ≤ n ∧ n ≤ 90 then some (n - 65)
  else if 97 ≤ n ∧ n ≤ 122 then some (n - 71)
  else if 48 ≤ n ∧ n ≤ 57 then some (n + 4)
  else if c = '+' then some 62
  else if c = '/' then some 63
  else none

/-- Encoding of a byte slice, three bytes to four characters, the last group padded with
`=`. -/
def encodeList : List Nat → List Char
  | [] => []
  | [a] => [encodeChar (a / 4), encodeChar (a % 4 * 16), '=', '=']
  | [a, b] => [encodeChar (a / 4), encodeChar (a % 4 * 16 + b / 16), encodeChar (b % 16 * 4), '=']
  | a :: b :: c :: rest =>
      encodeChar (a / 4) :: encodeChar (a % 4 * 16 + b / 16) ::
        encodeChar (b % 16 * 4 + c / 64) :: encodeChar (c % 64) :: encodeList rest

/-- The method `StdEncoding.EncodeToString`. -/
def EncodeToString (src : List Nat) : String := String.mk (encodeList src)

/-- Decoding of text without line breaks, four characters to three bytes; padding is accepted
in the last group only, and the unused bits of a padded group are not checked. -/
def decodeQuanta : List Char → Option (List Nat)
  | [] => some []
  | c0 :: c1 :: c2 :: c3 :: rest =>
    match decodeChar c0, decodeChar c1 with
    | some s0, some s1 =>
      match decodeChar c2 with
      | some s2 =>
        match decodeChar c3 with
        | some s3 =>
          match decodeQuanta rest with
          | some tl => some ((s0 * 4 + s1 / 16) :: (s1 % 16 * 16 + s2 / 4) :: (s2 % 4 * 64 + s3) :: tl)
          | none => none
        | none =>
          if c3 = '=' ∧ rest = [] then some [s0 * 4 + s1 / 16, s1 % 16 * 16 + s2 / 4] else none
      | none => if c2 = '=' ∧ c3 = '=' ∧ rest = [] then some [s0 * 4 + s1 / 16] else none
    | _, _ => none
  | _ => none

/-- The error `base64.CorruptInputError`. -/
def CorruptInputError : GoError := GoError.external "illegal base64 data"

/-- The method `StdEncoding.DecodeString`: carriage returns and line feeds are skipped, the
rest is decoded group by group. -/
def DecodeString (s : String) : Except GoError (List Nat) :=
  match decodeQuanta (s.data.filter (fun c => c ≠ '\r' ∧ c ≠ '\n')) with
  | some bytes => Except.ok bytes
  | none => Except.error CorruptInputError

end base64

namespace api

def refreshTokenLength : Nat := 32

/-- The constant `bcrypt.DefaultCost`. -/
def bcryptDefaultCost : Nat := 10

/-- The struct `UserData`. -/
structure UserData where
  ID : Int
  RefreshToken : String
  HashedRefreshToken : String
  AccessToken : jwt.TokenString
  deriving DecidableEq, Repr

/-- The function `validateRefreshToken`.  `compare` is `bcrypt.CompareHashAndPassword`, the
hash being a byte slice. -/
def validateRefreshToken (compare : List Nat → String → Option GoError)
    (hashedRefreshToken refreshToken : String) : Option GoError :=
  match base64.DecodeString hashedRefreshToken with
  | Except.error err =>
      some (GoError.Errorf "error during decoding hashed refresh token: %w" err)
  | Except.ok decodedBytes =>
    match compare decodedBytes refreshToken with
    | some err => some (GoError.Errorf "invalid refresh token: %w" err)
    | none => none

/-- The function `generateRefreshToken`.  `random` is the outcome of `rand.Read` on a buffer
of `refreshTokenLength` bytes: the bytes read, or an error; `generate` is
`bcrypt.GenerateFromPassword`, returning a byte slice. -/
def generateRefreshToken (random : Except GoError (List Nat))
    (generate : String → Nat → Except GoError (List Nat)) : Except GoError (String × String) :=
  match random with
  | Except.error err => Except.error (GoError.Errorf "error during reading made token: %w" err)
  | Except.ok token =>
    let refreshToken := base64.EncodeToString token
    match generate refreshToken bcryptDefaultCost with
    | Except.error err =>
        Except.error (GoError.Errorf "error during generatind refresh toke: %w" err)
    | Except.ok hashedRefreshToken =>
        Except.ok (refreshToken, base64.EncodeToString hashedRefreshToken)

/-- The function `generateTokens` at the clock reading `now`. -/
def generateTokens (hmac : jwt.Hmac) (now : Nat) (random : Except GoError (List Nat))
    (generate : String → Nat → Except GoError (List Nat)) (userID : Int) (secretKey : String) :
    Except GoError UserData :=
  match generateAccessToken hmac now userID secretKey with
  | Except.error err => Except.error err
  | Except.ok accessToken =>
    match generateRefreshToken random generate with
    | Except.error err => Except.error err
    | Except.ok (refreshToken, hashedRefreshToken) =>
        Except.ok { ID := userID, RefreshToken := refreshToken,
                    HashedRefreshToken := hashedRefreshToken, AccessToken := accessToken }

/-- Thirty-two bytes for the concrete runs. -/
def sampleRandom : List Nat := List.range 32

/-- A stand-in for `bcrypt.GenerateFromPassword` in the concrete runs: the cost followed by
the bytes of the password. -/
def sampleGenerate : String → Nat → Except GoError (List Nat) :=
  fun password cost => Except.ok (cost :: password.data.map (fun c => c.toNat % 256))

/-- The matching stand-in for `bcrypt.CompareHashAndPassword`. -/
def sampleCompare : List Nat → String → Option GoError :=
  fun hash password =>
    if hash.tail = password.data.map (fun c => c.toNat % 256) then none
    else some data.bcryptErrMismatchedHashAndPassword

end api

namespace data

/-- Query `SELECT EXISTS(SELECT 1 FROM users WHERE email = $1)`. -/
def existsEmail (t : Table) (email : String) : Bool :=
  t.any (fun r => r.Email == email)

/-- The zero value of `User`, as `var user User` declares it. -/
def zeroUser : User :=
  { ID := 0, Email := "", FirstName := "", LastName := "", Password := "", Active := 0,
    Score := 0, Referrer := "", CreatedAt := 0, UpdatedAt := 0 }

/-- The method `EmailCheck`: statement 0 is the existence query, statement 1 the query
`select firstName, password from users where email = $1`, whose row is scanned into the
fields `FirstName` and `Password` of a zero `User`. -/
def EmailCheck (fault : Faults) (t : Table) (email : String) : Option User × Option GoError :=
  match fault 0 with
  | some err => (none, some (GoError.Errorf "failed to check email: %w" err))
  | none =>
    if !existsEmail t email then
      (none, some (fmtErrorf "User with that email does not exists: %w" none))
    else
      match fault 1 with
      | some err =>
          (none, some (GoError.Errorf "failed to fecth user's password by email: %w" err))
      | none =>
        match t.find? (fun r => r.Email == email) with
        | none =>
            (none, some (GoError.Errorf "failed to fecth user's password by email: %w"
              sqlErrNoRows))
        | some r =>
            (some { zeroUser with FirstName := r.FirstName, Password := r.Password }, none)

end data

namespace api

/-- The request payload of `Authenticate`. -/
structure AuthenticatePayload where
  Email : String
  Password : String
  deriving DecidableEq, Repr

/-- A cookie set with `http.SetCookie`. -/
structure Cookie where
  Name : String
  Value : jwt.TokenString
  Path : String
  HttpOnly : Bool
  Secure : Bool
  SameSite : String
  Expires : Nat
  deriving DecidableEq, Repr

/-- What `Authenticate` did: the response it wrote, the repository calls it made, the cookies
it set, and whether it ended in a nil-pointer panic. -/
structure AuthenticateResult where
  response : Response
  calls : List RepoCall
  cookies : List Cookie
  panicked : Bool
  deriving DecidableEq, Repr

/-- Duration `cookieTimeExpire`, fifteen minutes, in seconds. -/
def cookieTimeExpire : Nat := 15 * 60

/-- Text `fmt.Sprintf("Welcome back, %s!", firstName)`. -/
def welcomeMessage (firstName : String) : String :=
  "Welcome back, " ++ firstName ++ "!"

/-- The handler `Authenticate`.  `body` is the outcome of `readJSON`, `secretKey` the value of
the environment variable `SECRET_KEY`, `now` and `cookieNow` the clock readings of the token
and of the cookie, `random`, `generate` and `compare` the random source and the two `bcrypt`
functions behind the refresh token, `writeFault` the error of the final `writeJSON`. -/
def Authenticate (hmac : jwt.Hmac) (random : Except GoError (List Nat))
    (generate : String → Nat → Except GoError (List Nat))
    (compare : List Nat → String → Option GoError) (secretKey : String) (now cookieNow : Nat)
    (repo : Repository) (body : Except GoError AuthenticatePayload)
    (writeFault : Option GoError) : AuthenticateResult :=
  match body with
  | Except.error err =>
      { response := errorJSON [] err StatusBadRequest, calls := [], cookies := [],
        panicked := false }
  | Except.ok requestPayload =>
    let c1 := [RepoCall.EmailCheck requestPayload.Email]
    match repo.EmailCheck requestPayload.Email with
    | (_, some _) =>
        { response := errorJSON [] ErrUserNotExist StatusBadRequest, calls := c1,
          cookies := [], panicked := false }
    | (none, none) => { response := [], calls := c1, cookies := [], panicked := true }
    | (some user, none) =>
      let c2 := c1 ++ [RepoCall.PasswordMatches requestPayload.Password user]
      let (valid, perr) := repo.PasswordMatches requestPayload.Password user
      if perr.isSome || !valid then
        { response := errorJSON [] ErrInvalidPassword StatusBadRequest, calls := c2,
          cookies := [], panicked := false }
      else
        match generateTokens hmac now random generate user.ID secretKey with
        | Except.error err =>
            { response := errorJSON [] err StatusInternalServerError, calls := c2,
              cookies := [], panicked := false }
        | Except.ok userData =>
          let cookie : Cookie :=
            { Name := "accessToken", Value := userData.AccessToken, Path := "/",
              HttpOnly := true, Secure := true, SameSite := "Strict",
              Expires := cookieNow + cookieTimeExpire }
          match validateRefreshToken compare userData.HashedRefreshToken
              userData.RefreshToken with
          | some err =>
              { response := errorJSON [] err StatusInternalServerError, calls := c2,
                cookies := [cookie], panicked := false }
          | none =>
            match writeJSON writeFault [] StatusAccepted (welcomeMessage user.FirstName) with
            | (w, some err) =>
                { response := errorJSON w err StatusBadRequest, calls := c2,
                  cookies := [cookie], panicked := false }
            | (w, none) =>
                { response := w, calls := c2, cookies := [cookie], panicked := false }

/-- The subject claim of the token a cookie carries. -/
def Cookie.subject (c : Cookie) : Option jwt.Value :=
  match c.Value with
  | jwt.TokenString.compact tok => tok.claims.lookup "sub"
  | jwt.TokenString.malformed _ => none

/-- A stand-in for `bcrypt.CompareHashAndPassword` of the data layer in the concrete runs: the
hash of a password is the password after the text `hash:`. -/
def samplePasswordCompare : String → String → Option GoError :=
  fun hash password =>
    if hash = "hash:" ++ password then none else some data.bcryptErrMismatchedHashAndPassword

/-- A repository for the concrete runs: `EmailCheck`, `PasswordMatches`, `AddPoints` and
`RedeemReferrer` are those of the data layer over the table `t` with every statement
succeeding; the other methods answer nil. -/
def tableRepository (t : data.Table) : Repository :=
  { AddPoints := fun id point => (data.AddPoints noFault 0 t id point).2,
    GetAll := ([], none),
    EmailCheck := data.EmailCheck noFault t,
    GetByEmail := fun _ => (none, none),
    RedeemReferrer := fun id referrer => (data.RedeemReferrer noFault t id referrer).2,
    GetOne := fun _ => (none, none),
    Update := fun _ => none,
    UpdateScore := fun _ => none,
    DeleteByID := fun _ => none,
    Insert := fun _ => (0, none),
    PasswordMatches := data.PasswordMatches samplePasswordCompare }

end api

namespace data

/-- An account with id 5 and a password hash for the concrete runs. -/
def userC : User :=
  { ID := 5, Email := "test@example.com", FirstName := "Test", LastName := "User",
    Password := "hash:correct_password", Active := 1, Score := 0, Referrer := "ref-C",
    CreatedAt := 0, UpdatedAt := 0 }

end data

namespace data

/-- Statement `update users set email = $1, firstName = $2, lastName = $3, active = $4,
updatedAt = $5 where id = $6`. -/
def updateUser (user : User) (now : Nat) (t : Table) : Table :=
  t.map (fun r => if r.ID = user.ID then
    { r with Email := user.Email, FirstName := user.FirstName, LastName := user.LastName,
             Active := user.Active, UpdatedAt := now } else r)

/-- Statement `update users set score = $1, updatedAt = $2 where id = $3`. -/
def updateUserScore (user : User) (now : Nat) (t : Table) : Table :=
  t.map (fun r => if r.ID = user.ID then { r with Score := user.Score, UpdatedAt := now } else r)

/-- Statement `delete from users where id = $1`. -/
def deleteUser (id : Int) (t : Table) : Table :=
  t.filter (fun r => r.ID ≠ id)

/-- The method `Update`: statement 0 is the existence query, statement 1 the update. -/
def Update (fault : Faults) (now : Nat) (t : Table) (user : User) : Table × Option GoError :=
  match UserExists (fault 0) t user.ID with
  | (_, some err) => (t, some err)
  | (idExists, none) =>
    if !idExists then (t, some ErrUserNotFound)
    else
      match execQuery (fault 1) (updateUser user now) t with
      | (t1, some err) => (t1, some (GoError.Errorf "failed to update user: %w" err))
      | (t1, none) => (t1, none)

/-- The method `UpdateScore`: statement 0 is the existence query, statement 1 the update. -/
def UpdateScore (fault : Faults) (now : Nat) (t : Table) (user : User) :
    Table × Option GoError :=
  match UserExists (fault 0) t user.ID with
  | (_, some err) => (t, some err)
  | (idExists, none) =>
    if !idExists then (t, some ErrUserNotFound)
    else
      match execQuery (fault 1) (updateUserScore user now) t with
      | (t1, some err) => (t1, some (GoError.Errorf "failed to update user's score: %w" err))
      | (t1, none) => (t1, none)

/-- The method `DeleteByID`: statement 0 is the existence query, statement 1 the deletion. -/
def DeleteByID (fault : Faults) (t : Table) (id : Int) : Table × Option GoError :=
  match UserExists (fault 0) t id with
  | (_, some err) => (t, some err)
  | (idExists, none) =>
    if !idExists then (t, some ErrUserNotFound)
    else
      match execQuery (fault 1) (deleteUser id) t with
      | (t1, some err) => (t1, some (GoError.Errorf "failed to delete user by id: %w" err))
      | (t1, none) => (t1, none)

/-- One operation of the repository on the table, with the guards under which scores stay
non-negative: a registration stores a score that is not negative, `AddPoints` adds an amount
that is not negative (the handlers add 50, 75, 100 or 10000), `UpdateScore` writes a score
that is not negative. -/
inductive GuardedStep : Table → Table → Prop where
  | insert (generate : String → Nat → Except GoError String) (fault : Faults)
      (createdAt updatedAt : Nat) (nextID : Int) (t : Table) (user : User)
      (h : 0 ≤ user.Score) :
      GuardedStep t (Insert generate fault createdAt updatedAt nextID t user).table
  | addPoints (fault : Faults) (now : Nat) (t : Table) (id point : Int) (h : 0 ≤ point) :
      GuardedStep t (AddPoints fault now t id point).1
  | redeemReferrer (fault : Faults) (t : Table) (id : Int) (referrer : String) :
      GuardedStep t (RedeemReferrer fault t id referrer).1
  | update (fault : Faults) (now : Nat) (t : Table) (user : User) :
      GuardedStep t (Update fault now t user).1
  | updateScore (fault : Faults) (now : Nat) (t : Table) (user : User) (h : 0 ≤ user.Score) :
      GuardedStep t (UpdateScore fault now t user).1
  | deleteByID (fault : Faults) (t : Table) (id : Int) :
      GuardedStep t (DeleteByID fault t id).1

/-- The tables reached from the empty table by guarded operations. -/
inductive Reachable : Table → Prop where
  | empty : Reachable []
  | step (t t' : Table) (ht : Reachable t) (hs : GuardedStep t t') : Reachable t'

/-- A stand-in for `bcrypt.GenerateFromPassword` of the data layer in the concrete runs. -/
def sampleHash : String → Nat → Except GoError String :=
  fun password _ => Except.ok ("hash:" ++ password)

end data

namespace api

/-- A registration payload with a long enough password and the score -5. -/
def negativeScorePayload : RegistratePayload :=
  { Email := "test@example.com", FirstName := "John", LastName := "Doe",
    Password := "longenoughpassword", Active := 1, Score := -5, Referrer := "ref123" }

end api

/-! ## Concurrent `AddPoints` calls

Calls run against one table.  Each call issues its two statements in order; the statements of
different calls interleave in any order, and each statement runs atomically. -/

namespace data

/-- How far one `AddPoints` call has got: not started, past the existence query with its
answer, or returned with its error. -/
inductive CallState where
  | start
  | checked (idExists : Bool)
  | done (err : Option GoError)
  deriving DecidableEq, Repr

/-- The next statement of an `AddPoints (id, point)` call against the table: first the
existence query of `UserExists`, whose error the call returns; then the answer
`ErrUserNotFound`, or the update, whose failure the call returns as `ErrAddPointsFailed`.
`fault` gives the errors of the two statements of this call, as in `AddPoints`. -/
def stepAddPoints (fault : Faults) (now : Nat) (id point : Int) (t : Table) :
    CallState → Table × CallState
  | CallState.start =>
      match UserExists (fault 0) t id with
      | (_, some err) => (t, CallState.done (some err))
      | (idExists, none) => (t, CallState.checked idExists)
  | CallState.checked idExists =>
      if !idExists then (t, CallState.done (some ErrUserNotFound))
      else
        match execQuery (fault 1) (updateAddPoints point now id) t with
        | (t1, some _) => (t1, CallState.done (some ErrAddPointsFailed))
        | (t1, none) => (t1, CallState.done none)
  | CallState.done err => (t, CallState.done err)

/-- The table and the calls in flight. -/
structure Shared where
  table : Table
  calls : List CallState
  deriving DecidableEq, Repr

/-- Run a schedule: each entry names the call that issues its next statement; `fault k` gives
the errors of the statements of call `k` and `now k` is its clock reading. -/
def runSchedule (fault : Nat → Faults) (now : Nat → Nat) (id point : Int) :
    List Nat → Shared → Shared
  | [], s => s
  | k :: rest, s =>
    match s.calls[k]? with
    | none => runSchedule fault now id point rest s
    | some c =>
      runSchedule fault now id point rest
        { table := (stepAddPoints (fault k) (now k) id point s.table c).1,
          calls := s.calls.set k (stepAddPoints (fault k) (now k) id point s.table c).2 }

/-- Number of calls that have returned nil. -/
def doneCount (calls : List CallState) : Nat :=
  calls.count (CallState.done none)

end data

namespace data

/-- Whether a call has returned. -/
def CallState.isDone : CallState → Bool
  | CallState.done _ => true
  | _ => false

/-- Fifty calls, none started. -/
def fiftyCalls : List CallState := List.replicate 50 CallState.start

/-- A schedule for fifty calls: call 0 issues its existence query first and its update last;
in between, calls 1 to 49 run one after the other. -/
def chainSchedule : List Nat :=
  (List.range 50).flatMap (fun k => [k, (k + 1) % 50])

/-- Runs in which no statement of any call fails. -/
def noCallFault : Nat → Faults := fun _ => noFault

/-- Runs in which the existence query of call 0 fails and every other statement of every call
succeeds. -/
def failCallZero : Nat → Faults := fun k => if k = 0 then failFirst else noFault

end data

/-! ## The package `strconv` and `getIDFromRequest` -/

namespace strconv

def ErrSyntax : GoError := GoError.sentinel "strconv.ErrSyntax" "invalid syntax"
def ErrRange : GoError := GoError.sentinel "strconv.ErrRange" "value out of range"

/-- The error `*strconv.NumError` of `Atoi`, which wraps `ErrSyntax` or `ErrRange`. -/
def NumError (err : GoError) : GoError := GoError.Errorf "strconv.Atoi: parsing: %w" err

/-- The value of a decimal digit. -/
def digitValue (c : Char) : Option Nat :=
  if c.isDigit then some (c.toNat - 48) else none

/-- The digit loop of `Atoi`: the number read so far times ten plus the next digit. -/
def parseDigits : List Char → Nat → Option Nat
  | [], acc => some acc
  | c :: cs, acc =>
    match digitValue c with
    | none => none
    | some d => parseDigits cs (acc * 10 + d)

/-- The sign and the digits of the text: a leading `+` or `-` is split off. -/
def splitSign : List Char → Bool × List Char
  | '-' :: ds => (true, ds)
  | '+' :: ds => (false, ds)
  | ds => (false, ds)

/-- The function `strconv.Atoi` where `int` has 64 bits: an optional sign and at least one
decimal digit; a value outside the range of `int` is an error. -/
def Atoi (s : String) : Except GoError Int :=
  let (neg, digits) := splitSign s.data
  if digits = [] then Except.error (NumError ErrSyntax)
  else
    match parseDigits digits 0 with
    | none => Except.error (NumError ErrSyntax)
    | some n =>
      let v : Int := if neg then -(n : Int) else (n : Int)
      if v < -(2 ^ 63) ∨ 2 ^ 63 ≤ v then Except.error (NumError ErrRange)
      else Except.ok v

/-- The integer that a decimal integer literal denotes: an optional sign followed by one or
more decimal digits, read in base ten.  This is the reading of the text, not the function of
the library. -/
def decimalLiteral (s : String) : Option Int :=
  let (neg, digits) := splitSign s.data
  if digits ≠ [] ∧ digits.all Char.isDigit then
    let n : Nat := Nat.ofDigits 10 (digits.reverse.map (fun c => c.toNat - 48))
    some (if neg then -(n : Int) else (n : Int))
  else none

end strconv

namespace api

/-- The function `getIDFromRequest`; `idStr` is the URL parameter `id`.  It returns what it
wrote to the response, the id and the error. -/
def getIDFromRequest (idStr : String) : Response × Int × Option GoError :=
  match strconv.Atoi idStr with
  | Except.error err =>
      (errorJSON [] ErrConvertID StatusBadRequest, 0,
        some (GoError.Errorf "failed to convert ID param '%s' to int: %w" err))
  | Except.ok id => ([], id, none)

end api

namespace api

/-! ## `cmd2/api/handlers.go`: task and referral handlers -/

def StatusOK : Nat := 200
def fixedRewardForTelegramSign : Int := 50
def fixedRewardForXSign : Int := 75
def fixedRewardForSomeTask : Int := 100
def fixedReardForSecretTask : Int := 10000

/-- Status code that the recorder of the tests shows for a response: the status of the first
write, and 200 when the handler wrote nothing. -/
def recordedCode (w : Response) : Nat := (statusCode w).getD StatusOK

/-- Text `fmt.Sprintf("complete task worked for user with id %d, added points %d", id, points)`. -/
def completeTaskMessage (id points : Int) : String :=
  "complete task worked for user with id " ++ toString id ++ ", added points "
    ++ toString points

/-- The method `completeTask`; `idStr` is the URL parameter `id`, `writeFault` the error of the
final `writeJSON`. -/
def completeTask (repo : Repository) (idStr : String) (points : Int)
    (writeFault : Option GoError) : HandlerResult :=
  match getIDFromRequest idStr with
  | (w, _, some _) => { response := w, calls := [] }
  | (w, id, none) =>
    match repo.AddPoints id points with
    | some _ =>
        { response := errorJSON w ErrAddPoints StatusBadRequest,
          calls := [RepoCall.AddPoints id points] }
    | none =>
      match writeJSON writeFault w StatusAccepted (completeTaskMessage id points) with
      | (w1, some err) =>
          { response := errorJSON w1 err StatusBadRequest,
            calls := [RepoCall.AddPoints id points] }
      | (w1, none) => { response := w1, calls := [RepoCall.AddPoints id points] }

/-- The request payload of `Kuarhodron`. -/
structure KuarhodronPayload where
  SecretWaterPassword : String
  deriving DecidableEq, Repr

/-- What `Kuarhodron` did: the response and repository calls, and the points of every call it
made to `completeTask`. -/
structure KuarhodronResult where
  result : HandlerResult
  completeTaskCalls : List Int
  deriving DecidableEq, Repr

/-- The handler `Kuarhodron`.  `body` is the outcome of `readJSON` on the request. -/
def Kuarhodron (repo : Repository) (idStr : String) (body : Except GoError KuarhodronPayload)
    (writeFault : Option GoError) : KuarhodronResult :=
  match body with
  | Except.error err =>
      { result := { response := errorJSON [] err StatusBadRequest, calls := [] },
        completeTaskCalls := [] }
  | Except.ok requestPayload =>
    if requestPayload.SecretWaterPassword = "KUARHODRON" then
      { result := completeTask repo idStr fixedReardForSecretTask writeFault,
        completeTaskCalls := [fixedReardForSecretTask] }
    else { result := { response := [], calls := [] }, completeTaskCalls := [] }

/-- The request payload of `redeemReferrer`. -/
structure RedeemReferrerPayload where
  Referrer : String
  deriving DecidableEq, Repr

/-- The handler `redeemReferrer`; `idStr` is the URL parameter `id`, `body` the outcome of
`readJSON` on the request, `writeFault` the error of the final `writeJSON`. -/
def redeemReferrer (repo : Repository) (idStr : String)
    (body : Except GoError RedeemReferrerPayload) (writeFault : Option GoError) :
    HandlerResult :=
  match getIDFromRequest idStr with
  | (w, _, some _) => { response := w, calls := [] }
  | (w, id, none) =>
    match body with
    | Except.error err => { response := errorJSON w err StatusBadRequest, calls := [] }
    | Except.ok requestPayload =>
      match repo.RedeemReferrer id requestPayload.Referrer with
      | some _ =>
          { response := errorJSON w ErrRedeemReferrer StatusBadRequest,
            calls := [RepoCall.RedeemReferrer id requestPayload.Referrer] }
      | none =>
        match writeJSON writeFault w StatusAccepted "Referrer redeemed" with
        | (w1, some err) =>
            { response := errorJSON w1 err StatusBadRequest,
              calls := [RepoCall.RedeemReferrer id requestPayload.Referrer] }
        | (w1, none) =>
            { response := w1, calls := [RepoCall.RedeemReferrer id requestPayload.Referrer] }

end api

namespace data

/-- An account registered without a referral code: its code is the empty string. -/
def userD : User :=
  { ID := 4, Email := "d@example.com", FirstName := "D", LastName := "", Password := "",
    Active := 1, Score := 0, Referrer := "", CreatedAt := 0, UpdatedAt := 0 }

/-- The ids of the accounts whose referral code is `referrer`, in table order. -/
def referrerIDs (t : Table) (referrer : String) : List Int :=
  (t.filter (fun r => r.Referrer == referrer)).map User.ID

/-- The credits of a redemption done with the ledger, as the specification words them:
`AddPoints (r, 100)` for every account `r` whose referral code is `referrer`, then
`AddPoints (id, 25)`, every statement succeeding, all at the clock reading `now`. -/
def ledgerRedeem (now : Nat) (t : Table) (id : Int) (referrer : String) : Table :=
  (AddPoints noFault now
    ((referrerIDs t referrer).foldl (fun tbl r => (AddPoints noFault now tbl r 100).1) t)
    id 25).1

end data

/-! ## Theorems -/

open data

/-! ### Queries -/

theorem existsReferrer_iff (t : Table) (c : String) :
    existsReferrer t c = true ↔ ∃ r ∈ t, r.Referrer = c := by
  simp [existsReferrer]

theorem existsID_iff (t : Table) (u : Int) :
    existsID t u = true ↔ ∃ r ∈ t, r.ID = u := by
  simp [existsID]

theorem existsReferrer_eq_false (t : Table) (c : String) (hc : ∀ r ∈ t, r.Referrer ≠ c) :
    existsReferrer t c = false := by
  cases h : existsReferrer t c with
  | false => rfl
  | true =>
    obtain ⟨r, hr, hrc⟩ := (existsReferrer_iff t c).1 h
    exact absurd hrc (hc r hr)

theorem existsID_eq_false (t : Table) (u : Int) (hu : ∀ r ∈ t, r.ID ≠ u) :
    existsID t u = false := by
  cases h : existsID t u with
  | false => rfl
  | true =>
    obtain ⟨r, hr, hru⟩ := (existsID_iff t u).1 h
    exact absurd hru (hu r hr)

/-- The row that `QueryRow` scans for `id` is a row of the table with that id. -/
theorem find_id_spec (t : Table) (u : Int) (r : User)
    (h : t.find? (fun r => r.ID == u) = some r) : r ∈ t ∧ r.ID = u := by
  refine ⟨List.mem_of_find?_eq_some h, ?_⟩
  have := List.find?_some h
  simpa using this

/-- An id that some row carries is found by the id query. -/
theorem find_id_isSome (t : Table) (u : Int) (h : ∃ r ∈ t, r.ID = u) :
    ∃ r, t.find? (fun r => r.ID == u) = some r := by
  obtain ⟨r, hr, hru⟩ := h
  cases hf : t.find? (fun r => r.ID == u) with
  | some r0 => exact ⟨r0, rfl⟩
  | none =>
    rw [List.find?_eq_none] at hf
    have := hf r hr
    simp [hru] at this

/-! ### `RedeemReferrer` -/

/-- With every statement succeeding and every check passing, `RedeemReferrer` runs both
credits and returns nil. -/
theorem RedeemReferrer_eq_of_ok (fault : Faults) (t : Table) (u : Int) (c : String)
    (hfault : ∀ k, fault k = none)
    (hc : ∃ r ∈ t, r.Referrer = c)
    (hu : ∃ r ∈ t, r.ID = u)
    (hne : ∀ r ∈ t, r.ID = u → r.Referrer ≠ c) :
    RedeemReferrer fault t u c = (updateRedeemerScore u (updateReferrerScore c t), none) := by
  obtain ⟨r0, hr0⟩ := find_id_isSome t u hu
  have h0 := find_id_spec t u r0 hr0
  have hne0 : r0.Referrer ≠ c := hne r0 h0.1 h0.2
  have e1 : existsReferrer t c = true := (existsReferrer_iff t c).2 hc
  have e2 : existsID t u = true := (existsID_iff t u).2 hu
  simp [RedeemReferrer, hfault, e1, e2, UserExists, selectReferrer, hr0, hne0, execQuery]

/-- C1: when some account carries code `c`, the id `u` exists, the code of `u` is not `c` and no
statement fails, `RedeemReferrer u c` returns nil; row by row, the table afterwards differs
from the table before in scores only, every account with code `c` has gained exactly 100,
`u` has gained exactly 25 and every other score is as before. -/
theorem RedeemReferrer_success (fault : Faults) (t : Table) (u : Int) (c : String)
    (hfault : ∀ k, fault k = none)
    (hc : ∃ r ∈ t, r.Referrer = c)
    (hu : ∃ r ∈ t, r.ID = u)
    (hne : ∀ r ∈ t, r.ID = u → r.Referrer ≠ c) :
    (RedeemReferrer fault t u c).2 = none ∧
    List.Forall₂ (fun r r' =>
        r' = { r with Score := r'.Score } ∧
        (r.Referrer = c → r'.Score = r.Score + 100) ∧
        (r.ID = u → r'.Score = r.Score + 25) ∧
        (r.Referrer ≠ c → r.ID ≠ u → r'.Score = r.Score))
      t (RedeemReferrer fault t u c).1 := by
  rw [RedeemReferrer_eq_of_ok fault t u c hfault hc hu hne]
  refine ⟨rfl, ?_⟩
  simp only [updateRedeemerScore, updateReferrerScore, List.map_map]
  rw [List.forall₂_map_right_iff, List.forall₂_same]
  intro r hr
  by_cases h1 : r.Referrer = c
  · have h2 : r.ID ≠ u := fun h => hne r hr h h1
    simp [h1, h2]
  · by_cases h2 : r.ID = u <;> simp [h1, h2]

/-- The scenario of C1: A has code `ref-A` and score 0, B has score 0 and redeems `ref-A`;
afterwards A has 100 and B has 25. -/
theorem RedeemReferrer_success_witness :
    ((RedeemReferrer noFault tableAB 2 "ref-A").2 = none ∧
      List.Forall₂ (fun r r' =>
          r' = { r with Score := r'.Score } ∧
          (r.Referrer = "ref-A" → r'.Score = r.Score + 100) ∧
          (r.ID = 2 → r'.Score = r.Score + 25) ∧
          (r.Referrer ≠ "ref-A" → r.ID ≠ 2 → r'.Score = r.Score))
        tableAB (RedeemReferrer noFault tableAB 2 "ref-A").1) ∧
    tableAB.map User.Score = [0, 0] ∧
    (RedeemReferrer noFault tableAB 2 "ref-A").1.map User.Score = [100, 25] :=
  ⟨RedeemReferrer_success noFault tableAB 2 "ref-A" (fun _ => rfl) (by decide) (by decide)
    (by decide), by decide, by decide⟩

/-- C2: when the id `u` exists and the referral code stored for it (in the row `ru` that the
id query selects) is `c`, `RedeemReferrer u c` leaves the table as it was and returns a non-nil
error, whatever statement fails; when the three queries succeed that error is the
self-redemption error. -/
theorem RedeemReferrer_self (fault : Faults) (t : Table) (u : Int) (c : String) (ru : User)
    (hfind : t.find? (fun r => r.ID == u) = some ru) (hself : ru.Referrer = c) :
    (RedeemReferrer fault t u c).1 = t ∧
    (RedeemReferrer fault t u c).2 ≠ none ∧
    ((∀ k, k < 3 → fault k = none) →
      (RedeemReferrer fault t u c).2 =
        some (GoError.ErrorfNil "User cannot redeem for their own referrer: %w")) := by
  have h0 := find_id_spec t u ru hfind
  have e1 : existsReferrer t c = true := (existsReferrer_iff t c).2 ⟨ru, h0.1, hself⟩
  have e2 : existsID t u = true := (existsID_iff t u).2 ⟨ru, h0.1, h0.2⟩
  refine ⟨?_, ?_, ?_⟩
  · cases h0 : fault 0 <;> cases h1 : fault 1 <;> cases h2 : fault 2 <;>
      simp [RedeemReferrer, h0, h1, h2, e1, e2, UserExists, selectReferrer, hfind, hself]
  · cases h0 : fault 0 <;> cases h1 : fault 1 <;> cases h2 : fault 2 <;>
      simp [RedeemReferrer, h0, h1, h2, e1, e2, UserExists, selectReferrer, hfind, hself]
  · intro hk
    simp [RedeemReferrer, hk 0, hk 1, hk 2, e1, e2, UserExists, selectReferrer, hfind, hself,
      fmtErrorf]

/-- Account A redeeming its own code `ref-A`: the self-redemption error, no score changed. -/
theorem RedeemReferrer_self_witness :
    tableAB.find? (fun r => r.ID == 1) = some userA ∧ userA.Referrer = "ref-A" ∧
    (RedeemReferrer noFault tableAB 1 "ref-A").1 = tableAB ∧
    (RedeemReferrer noFault tableAB 1 "ref-A").2 ≠ none ∧
    ((∀ k, k < 3 → noFault k = none) →
      (RedeemReferrer noFault tableAB 1 "ref-A").2 =
        some (GoError.ErrorfNil "User cannot redeem for their own referrer: %w")) :=
  ⟨by decide, by decide, RedeemReferrer_self noFault tableAB 1 "ref-A" userA (by decide) (by decide)⟩

/-- C3: when no account carries code `c`, `RedeemReferrer u c` leaves the table as it was and
returns a non-nil error, which is the referrer-not-found error when the first query succeeds;
the check comes first, so the result is the same for every id, existing or not. -/
theorem RedeemReferrer_unknown_code (fault : Faults) (t : Table) (u : Int) (c : String)
    (hc : ∀ r ∈ t, r.Referrer ≠ c) :
    (RedeemReferrer fault t u c).1 = t ∧
    (RedeemReferrer fault t u c).2 ≠ none ∧
    (fault 0 = none →
      (RedeemReferrer fault t u c).2 =
        some (GoError.ErrorfNil "referrer does not exists: %w")) ∧
    (∀ u' : Int, RedeemReferrer fault t u' c = RedeemReferrer fault t u c) := by
  have e1 : existsReferrer t c = false := existsReferrer_eq_false t c hc
  refine ⟨?_, ?_, ?_, ?_⟩
  · cases h0 : fault 0 <;> simp [RedeemReferrer, h0, e1]
  · cases h0 : fault 0 <;> simp [RedeemReferrer, h0, e1]
  · intro h0
    simp [RedeemReferrer, h0, e1, fmtErrorf]
  · intro u'
    cases h0 : fault 0 <;> simp [RedeemReferrer, h0, e1]

/-- Account B redeeming the code `ref-C`, which nobody carries. -/
theorem RedeemReferrer_unknown_code_witness :
    (∀ r ∈ tableAB, r.Referrer ≠ "ref-C") ∧
    (RedeemReferrer noFault tableAB 2 "ref-C").1 = tableAB ∧
    (RedeemReferrer noFault tableAB 2 "ref-C").2 ≠ none ∧
    (noFault 0 = none →
      (RedeemReferrer noFault tableAB 2 "ref-C").2 =
        some (GoError.ErrorfNil "referrer does not exists: %w")) ∧
    (∀ u' : Int, RedeemReferrer noFault tableAB u' "ref-C"
      = RedeemReferrer noFault tableAB 2 "ref-C") :=
  ⟨by decide, RedeemReferrer_unknown_code noFault tableAB 2 "ref-C" (by decide)⟩

/-- C4: for a code `c` that some account carries and an id `u` that no account has, with the
two existence queries succeeding, `RedeemReferrer u c` changes no row and returns the error
built by `fmt.Errorf("user does not exists: %w", nil)`; that error is not `ErrUserNotFound`
and does not wrap it, while `AddPoints` on the same id returns `ErrUserNotFound` itself. -/
theorem RedeemReferrer_missing_user (fault : Faults) (now : Nat) (t : Table) (u point : Int)
    (c : String)
    (hc : ∃ r ∈ t, r.Referrer = c) (hu : ∀ r ∈ t, r.ID ≠ u)
    (h0 : fault 0 = none) (h1 : fault 1 = none) :
    RedeemReferrer fault t u c = (t, some (GoError.ErrorfNil "user does not exists: %w")) ∧
    errorsIs (GoError.ErrorfNil "user does not exists: %w") ErrUserNotFound = false ∧
    AddPoints fault now t u point = (t, some ErrUserNotFound) := by
  have e1 : existsReferrer t c = true := (existsReferrer_iff t c).2 hc
  have e2 : existsID t u = false := existsID_eq_false t u hu
  refine ⟨?_, ?_, ?_⟩
  · simp [RedeemReferrer, h0, h1, e1, e2, UserExists, fmtErrorf]
  · decide
  · simp [AddPoints, h0, e2, UserExists]

/-- The id 3, which neither A nor B has, redeeming `ref-A`. -/
theorem RedeemReferrer_missing_user_witness :
    RedeemReferrer noFault tableAB 3 "ref-A"
      = (tableAB, some (GoError.ErrorfNil "user does not exists: %w")) ∧
    errorsIs (GoError.ErrorfNil "user does not exists: %w") ErrUserNotFound = false ∧
    AddPoints noFault 0 tableAB 3 10 = (tableAB, some ErrUserNotFound) :=
  RedeemReferrer_missing_user noFault 0 tableAB 3 10 "ref-A" (by decide) (by decide) rfl rfl

/-- C5, as stated, fails: B redeems `ref-A` and the redeemer credit fails; the call returns
a non-nil error, yet the score of A has gone from 0 to 100 while B stays at 0. -/
theorem RedeemReferrer_not_atomic :
    (RedeemReferrer failRedeemerCredit tableAB 2 "ref-A").2 ≠ none ∧
    tableAB.map User.Score = [0, 0] ∧
    (RedeemReferrer failRedeemerCredit tableAB 2 "ref-A").1.map User.Score = [100, 0] := by
  decide

/-- C5 (amended): when `RedeemReferrer u c` returns a non-nil error, either the table is as it
was, or every check passed, the first four statements succeeded and the redeemer credit
(statement 4) failed; in that case every account with code `c` has already gained 100 and no
other score, that of `u` included, has changed. -/
theorem RedeemReferrer_error_effect (fault : Faults) (t : Table) (u : Int) (c : String)
    (herr : (RedeemReferrer fault t u c).2 ≠ none) :
    (RedeemReferrer fault t u c).1 = t ∨
    ((∀ k, k < 4 → fault k = none) ∧ fault 4 ≠ none ∧
      (∃ r ∈ t, r.Referrer = c) ∧ (∃ r ∈ t, r.ID = u) ∧
      List.Forall₂ (fun r r' =>
          r' = { r with Score := r'.Score } ∧
          (r.Referrer = c → r'.Score = r.Score + 100) ∧
          (r.Referrer ≠ c → r'.Score = r.Score))
        t (RedeemReferrer fault t u c).1) := by
  cases h0 : fault 0 with
  | some e => left; simp [RedeemReferrer, h0]
  | none =>
  cases e1 : existsReferrer t c with
  | false => left; simp [RedeemReferrer, h0, e1]
  | true =>
  cases h1 : fault 1 with
  | some e => left; simp [RedeemReferrer, h0, e1, h1, UserExists]
  | none =>
  cases e2 : existsID t u with
  | false => left; simp [RedeemReferrer, h0, e1, h1, e2, UserExists]
  | true =>
  cases h2 : fault 2 with
  | some e => left; simp [RedeemReferrer, h0, e1, h1, e2, h2, UserExists, selectReferrer]
  | none =>
  cases hf : t.find? (fun r => r.ID == u) with
  | none =>
    left; simp [RedeemReferrer, h0, e1, h1, e2, h2, UserExists, selectReferrer, hf]
  | some r0 =>
  by_cases hs : r0.Referrer = c
  · left; simp [RedeemReferrer, h0, e1, h1, e2, h2, UserExists, selectReferrer, hf, hs]
  · cases h3 : fault 3 with
    | some e =>
      left
      simp [RedeemReferrer, h0, e1, h1, e2, h2, UserExists, selectReferrer, hf, hs, h3,
        execQuery]
    | none =>
      cases h4 : fault 4 with
      | none =>
        exfalso
        apply herr
        simp [RedeemReferrer, h0, e1, h1, e2, h2, UserExists, selectReferrer, hf, hs, h3, h4,
          execQuery]
      | some e =>
        right
        refine ⟨?_, by simp, (existsReferrer_iff t c).1 e1, (existsID_iff t u).1 e2, ?_⟩
        · intro k hk
          interval_cases k <;> assumption
        · have hres : (RedeemReferrer fault t u c).1 = updateReferrerScore c t := by
            simp [RedeemReferrer, h0, e1, h1, e2, h2, UserExists, selectReferrer, hf, hs, h3,
              h4, execQuery]
          rw [hres, updateReferrerScore, List.forall₂_map_right_iff, List.forall₂_same]
          intro r _
          by_cases hr : r.Referrer = c <;> simp [hr]

/-- B redeems `ref-A` and the redeemer credit fails: the error is non-nil and the table is in
one of the two states the amended C5 allows. -/
theorem RedeemReferrer_error_effect_witness :
    (RedeemReferrer failRedeemerCredit tableAB 2 "ref-A").2 ≠ none ∧
    ((RedeemReferrer failRedeemerCredit tableAB 2 "ref-A").1 = tableAB ∨
    ((∀ k, k < 4 → failRedeemerCredit k = none) ∧ failRedeemerCredit 4 ≠ none ∧
      (∃ r ∈ tableAB, r.Referrer = "ref-A") ∧ (∃ r ∈ tableAB, r.ID = 2) ∧
      List.Forall₂ (fun r r' =>
          r' = { r with Score := r'.Score } ∧
          (r.Referrer = "ref-A" → r'.Score = r.Score + 100) ∧
          (r.Referrer ≠ "ref-A" → r'.Score = r.Score))
        tableAB (RedeemReferrer failRedeemerCredit tableAB 2 "ref-A").1)) :=
  ⟨by decide, RedeemReferrer_error_effect failRedeemerCredit tableAB 2 "ref-A" (by decide)⟩

/-! ### `AddPoints` -/

/-- C6: for an id that no account has, `AddPoints` leaves the table exactly as it was (no row
created, no score or timestamp modified) and returns a non-nil error, which is
`ErrUserNotFound` when the existence query succeeds. -/
theorem AddPoints_missing_user (fault : Faults) (now : Nat) (t : Table) (id point : Int)
    (hid : ∀ r ∈ t, r.ID ≠ id) :
    (AddPoints fault now t id point).1 = t ∧
    (AddPoints fault now t id point).2 ≠ none ∧
    (fault 0 = none → (AddPoints fault now t id point).2 = some ErrUserNotFound) := by
  have e2 : existsID t id = false := existsID_eq_false t id hid
  refine ⟨?_, ?_, ?_⟩
  · cases h0 : fault 0 <;> simp [AddPoints, h0, e2, UserExists]
  · cases h0 : fault 0 <;> simp [AddPoints, h0, e2, UserExists]
  · intro h0
    simp [AddPoints, h0, e2, UserExists]

/-- Adding 10 points to the id 3, which neither A nor B has. -/
theorem AddPoints_missing_user_witness :
    (∀ r ∈ tableAB, r.ID ≠ 3) ∧
    (AddPoints noFault 7 tableAB 3 10).1 = tableAB ∧
    (AddPoints noFault 7 tableAB 3 10).2 ≠ none ∧
    (noFault 0 = none → (AddPoints noFault 7 tableAB 3 10).2 = some ErrUserNotFound) :=
  ⟨by decide, AddPoints_missing_user noFault 7 tableAB 3 10 (by decide)⟩

/-- C7: for an existing id, when both statements succeed, `AddPoints id point` returns nil;
row by row, no row is added or removed, every row keeps its id, email, names, password hash,
active flag, referral code and creation time, a row with that id has its score increased by
`point` and its update time set to the current time, and every other row is unchanged. -/
theorem AddPoints_success (fault : Faults) (now : Nat) (t : Table) (id point : Int)
    (hid : ∃ r ∈ t, r.ID = id) (h0 : fault 0 = none) (h1 : fault 1 = none) :
    (AddPoints fault now t id point).2 = none ∧
    List.Forall₂ (fun r r' =>
        r'.ID = r.ID ∧ r'.Email = r.Email ∧ r'.FirstName = r.FirstName ∧
        r'.LastName = r.LastName ∧ r'.Password = r.Password ∧ r'.Active = r.Active ∧
        r'.Referrer = r.Referrer ∧ r'.CreatedAt = r.CreatedAt ∧
        (r.ID = id → r'.Score = r.Score + point ∧ r'.UpdatedAt = now) ∧
        (r.ID ≠ id → r' = r))
      t (AddPoints fault now t id point).1 := by
  have e2 : existsID t id = true := (existsID_iff t id).2 hid
  have hres : AddPoints fault now t id point = (updateAddPoints point now id t, none) := by
    simp [AddPoints, h0, h1, e2, UserExists, execQuery]
  rw [hres]
  refine ⟨rfl, ?_⟩
  rw [updateAddPoints, List.forall₂_map_right_iff, List.forall₂_same]
  intro r _
  by_cases hr : r.ID = id <;> simp [hr]

/-- Adding 10 points to B at time 7: B has 10 points and update time 7, A is untouched. -/
theorem AddPoints_success_witness :
    ((AddPoints noFault 7 tableAB 2 10).2 = none ∧
      List.Forall₂ (fun r r' =>
          r'.ID = r.ID ∧ r'.Email = r.Email ∧ r'.FirstName = r.FirstName ∧
          r'.LastName = r.LastName ∧ r'.Password = r.Password ∧ r'.Active = r.Active ∧
          r'.Referrer = r.Referrer ∧ r'.CreatedAt = r.CreatedAt ∧
          (r.ID = 2 → r'.Score = r.Score + 10 ∧ r'.UpdatedAt = 7) ∧
          (r.ID ≠ 2 → r' = r))
        tableAB (AddPoints noFault 7 tableAB 2 10).1) ∧
    (AddPoints noFault 7 tableAB 2 10).1
      = [userA, { userB with Score := 10, UpdatedAt := 7 }] :=
  ⟨AddPoints_success noFault 7 tableAB 2 10 (by decide) rfl rfl, by decide⟩

/-! ### Password length and comparison -/

/-- C8, as stated, fails: the password `пароль1` has seven characters and thirteen bytes; the
length check of `Insert` lets it through, so the hash function is called with it and the
error, if any, is not `ErrPasswordLength`; `Registrate` calls `Repo.Insert` with it. -/
theorem Insert_short_multibyte_password :
    api.shortMultibyte.length = 7 ∧ api.shortMultibyte.utf8ByteSize = 13 ∧
    (∀ (generate : String → Nat → Except GoError String) (fault : Faults)
        (createdAt updatedAt : Nat) (nextID : Int) (t : Table),
      (data.Insert generate fault createdAt updatedAt nextID t
          (api.payloadWith api.shortMultibyte).toUser).hashCalls
        = [(api.shortMultibyte, bcryptCost)] ∧
      (data.Insert generate fault createdAt updatedAt nextID t
          (api.payloadWith api.shortMultibyte).toUser).err ≠ some data.ErrPasswordLength) ∧
    (∀ (repo : api.Repository) (writeFault : Option GoError),
      (api.Registrate repo (Except.ok (api.payloadWith api.shortMultibyte)) writeFault).calls
        = [api.RepoCall.Insert (api.payloadWith api.shortMultibyte).toUser]) := by
  have hlen : ¬ api.shortMultibyte.utf8ByteSize < 8 := by decide
  have hpw : (api.payloadWith api.shortMultibyte).toUser.Password = api.shortMultibyte := rfl
  have hpw2 : (api.payloadWith api.shortMultibyte).Password = api.shortMultibyte := rfl
  refine ⟨by decide, by decide, ?_, ?_⟩
  · intro generate fault createdAt updatedAt nextID t
    unfold data.Insert
    rw [hpw, if_neg (by simpa [passMinLength] using hlen)]
    cases generate api.shortMultibyte bcryptCost with
    | error e => simp [data.ErrPasswordLength]
    | ok h => cases fault 0 <;> simp [data.ErrPasswordLength]
  · intro repo writeFault
    unfold api.Registrate
    simp only [hpw2, api.atLeastPassLength, if_neg hlen]
    rcases hins : repo.Insert (api.payloadWith api.shortMultibyte).toUser with ⟨id, _ | err⟩
    · cases writeFault <;> simp [api.writeJSON]
    · simp

/-- C8 (amended): for every password whose UTF-8 encoding is shorter than 8 bytes, `Insert`
returns `ErrPasswordLength` with the table as it was and without calling the hash function,
and `Registrate`, given a well-formed body with that password, answers 400 Bad Request
with its own `ErrPasswordLength` and makes no repository call. -/
theorem Insert_rejects_short_password
    (generate : String → Nat → Except GoError String) (fault : Faults)
    (createdAt updatedAt : Nat) (nextID : Int) (t : Table) (user : User)
    (repo : api.Repository) (payload : api.RegistratePayload) (writeFault : Option GoError)
    (hlen : user.Password.utf8ByteSize < 8) (hpay : payload.Password = user.Password) :
    data.Insert generate fault createdAt updatedAt nextID t user
      = { table := t, id := 0, err := some data.ErrPasswordLength, hashCalls := [] } ∧
    api.Registrate repo (Except.ok payload) writeFault
      = { response := [{ status := 400, body := api.Body.error api.ErrPasswordLength }],
          calls := [] } ∧
    api.statusCode (api.Registrate repo (Except.ok payload) writeFault).response = some 400 := by
  have h1 : data.Insert generate fault createdAt updatedAt nextID t user
      = { table := t, id := 0, err := some data.ErrPasswordLength, hashCalls := [] } := by
    simp [data.Insert, passMinLength, hlen]
  have h2 : api.Registrate repo (Except.ok payload) writeFault
      = { response := [{ status := 400, body := api.Body.error api.ErrPasswordLength }],
          calls := [] } := by
    simp [api.Registrate, api.atLeastPassLength, hpay, hlen, api.errorJSON,
      api.StatusBadRequest]
  refine ⟨h1, h2, ?_⟩
  rw [h2]
  rfl

/-- The password `short` of the registration test. -/
theorem Insert_rejects_short_password_witness :
    "short".utf8ByteSize < 8 ∧
    data.Insert (fun p _ => Except.ok p) noFault 1 1 3 tableAB (api.payloadWith "short").toUser
      = { table := tableAB, id := 0, err := some data.ErrPasswordLength, hashCalls := [] } ∧
    api.Registrate
        { AddPoints := fun _ _ => none, GetAll := ([], none),
          EmailCheck := fun _ => (none, none), GetByEmail := fun _ => (none, none),
          RedeemReferrer := fun _ _ => none, GetOne := fun _ => (none, none),
          Update := fun _ => none, UpdateScore := fun _ => none, DeleteByID := fun _ => none,
          Insert := fun _ => (0, none), PasswordMatches := fun _ _ => (true, none) }
        (Except.ok (api.payloadWith "short")) none
      = { response := [{ status := 400, body := api.Body.error api.ErrPasswordLength }],
          calls := [] } ∧
    api.statusCode (api.Registrate
        { AddPoints := fun _ _ => none, GetAll := ([], none),
          EmailCheck := fun _ => (none, none), GetByEmail := fun _ => (none, none),
          RedeemReferrer := fun _ _ => none, GetOne := fun _ => (none, none),
          Update := fun _ => none, UpdateScore := fun _ => none, DeleteByID := fun _ => none,
          Insert := fun _ => (0, none), PasswordMatches := fun _ _ => (true, none) }
        (Except.ok (api.payloadWith "short")) none).response = some 400 :=
  ⟨by decide, Insert_rejects_short_password _ _ _ _ _ _ _ _ _ _ (by decide) rfl⟩

/-- C9: `PasswordMatches` has three outcomes, fixed by what the comparator returns: `(true, nil)`
when it returns nil, `(false, nil)` when it returns an error that is
`bcrypt.ErrMismatchedHashAndPassword`, `(false, err)` with a non-nil `err` wrapping the
comparator's error in every other case; it never returns `true` with an error. -/
theorem PasswordMatches_outcomes (compare : String → String → Option GoError)
    (plainText : String) (user : User) :
    (compare user.Password plainText = none →
      PasswordMatches compare plainText user = (true, none)) ∧
    (∀ err, compare user.Password plainText = some err →
      errorsIs err bcryptErrMismatchedHashAndPassword = true →
      PasswordMatches compare plainText user = (false, none)) ∧
    (∀ err, compare user.Password plainText = some err →
      errorsIs err bcryptErrMismatchedHashAndPassword = false →
      PasswordMatches compare plainText user
        = (false, some (GoError.Errorf "failed to compare passwords: %w" err))) ∧
    ¬ ((PasswordMatches compare plainText user).1 = true ∧
        (PasswordMatches compare plainText user).2 ≠ none) := by
  refine ⟨?_, ?_, ?_, ?_⟩
  · intro h
    simp [PasswordMatches, h]
  · intro err h hm
    simp [PasswordMatches, h, hm]
  · intro err h hm
    simp [PasswordMatches, h, hm]
  · unfold PasswordMatches
    cases compare user.Password plainText with
    | none => simp
    | some err => by_cases hm : errorsIs err bcryptErrMismatchedHashAndPassword <;> simp [hm]

/-! ### Access tokens -/

theorem float64_of_small (n : Int) (h : n.natAbs < 2 ^ 53) : jwt.float64 n = n := by
  unfold jwt.float64
  exact if_pos h

/-- What the parser reports for a token signed by `HS512` over claims `sub` and `exp`, when the
signature is the keyed hash under the key of the caller. -/
theorem ParseWithClaims_issued (hmac : jwt.Hmac) (secretKey : String) (now : Nat)
    (sub exp : Int) (hexp : jwt.float64 exp ≠ 0) (initial : jwt.MapClaims)
    (hinit : ∀ k ∈ ["exp", "iat", "nbf"], initial.lookup k = none) :
    jwt.ParseWithClaims hmac (now : Int)
      (jwt.TokenString.compact
        { alg := some "HS512",
          claims := [("sub", jwt.Value.number sub), ("exp", jwt.Value.number exp)],
          signature := hmac "HS512" secretKey
            (some "HS512", [("sub", jwt.Value.number sub), ("exp", jwt.Value.number exp)]) })
      initial (fun _ => Except.ok secretKey)
    = if (now : Int) ≤ jwt.float64 exp then
        { claims := [("sub", jwt.Value.number sub), ("exp", jwt.Value.number exp)] ++ initial,
          Valid := true, err := none }
      else
        { claims := [("sub", jwt.Value.number sub), ("exp", jwt.Value.number exp)] ++ initial,
          Valid := false, err := some (GoError.external "Token is expired") } := by
  have hi1 := hinit "exp" (by simp)
  have hi2 := hinit "iat" (by simp)
  have hi3 := hinit "nbf" (by simp)
  by_cases hle : (now : Int) ≤ jwt.float64 exp
  · simp [jwt.ParseWithClaims, jwt.GetSigningMethod, jwt.Method.Verify, jwt.MapClaims.Valid,
      jwt.MapClaims.VerifyExpiresAt, jwt.MapClaims.VerifyIssuedAt, jwt.MapClaims.VerifyNotBefore,
      jwt.verifyTimeClaim, jwt.verifyExp, List.lookup, hi1, hi2, hi3, hle, hexp]
  · simp [jwt.ParseWithClaims, jwt.GetSigningMethod, jwt.Method.Verify, jwt.MapClaims.Valid,
      jwt.MapClaims.VerifyExpiresAt, jwt.MapClaims.VerifyIssuedAt, jwt.MapClaims.VerifyNotBefore,
      jwt.verifyTimeClaim, jwt.verifyExp, List.lookup, hi1, hi2, hi3, hle, hexp]


/-- C11 (amended): for a user id of magnitude below `2 ^ 53` and an issue time `t` (Unix
seconds, with `t + 900` below `2 ^ 53`), `generateAccessToken` returns an `HS512` token with
claims `sub = userID` and `exp = t + 900`; the middleware with the same secret passes it on,
with the subject `userID`, at every time up to and including `exp` (so at `t` plus 14
minutes), and answers 401 at every time after `exp` (so at `t` plus 16 minutes). -/
theorem accessToken_lifetime (hmac : jwt.Hmac) (userID : Int) (secretKey : String) (t : Nat)
    (hid : userID.natAbs < 2 ^ 53) (ht : t + 900 < 2 ^ 53) :
    ∃ tok : jwt.Compact,
      api.generateAccessToken hmac t userID secretKey
        = Except.ok (jwt.TokenString.compact tok) ∧
      tok.alg = some "HS512" ∧
      tok.claims = [("sub", jwt.Value.number userID),
                    ("exp", jwt.Value.number ((t + 900 : Nat) : Int))] ∧
      (∀ now : Nat, now ≤ t + 900 →
        api.authTokenMiddleware hmac secretKey now (some (jwt.TokenString.compact tok))
          = api.AuthOutcome.next userID) ∧
      (∀ now : Nat, t + 900 < now →
        ∃ err, api.authTokenMiddleware hmac secretKey now (some (jwt.TokenString.compact tok))
          = api.AuthOutcome.unauthorized (some err)) := by
  have hexpf : jwt.float64 ((t + 900 : Nat) : Int) = ((t + 900 : Nat) : Int) :=
    float64_of_small _ (by simpa using ht)
  have hne : jwt.float64 ((t + 900 : Nat) : Int) ≠ 0 := by
    rw [hexpf]
    exact_mod_cast Nat.succ_ne_zero (t + 899)
  have hinit : ∀ k ∈ ["exp", "iat", "nbf"],
      List.lookup k ([("sub", jwt.Value.other)] : jwt.MapClaims) = none := by
    decide
  refine ⟨{ alg := some "HS512",
            claims := [("sub", jwt.Value.number userID),
                       ("exp", jwt.Value.number ((t + 900 : Nat) : Int))],
            signature := hmac "HS512" secretKey
              (some "HS512", [("sub", jwt.Value.number userID),
                ("exp", jwt.Value.number ((t + 900 : Nat) : Int))]) }, ?_, rfl, rfl, ?_, ?_⟩
  · simp [api.generateAccessToken, jwt.SignedString, jwt.Method.Sign, jwt.SigningMethodHS512,
      jwt.Method.Alg, api.accessTokenExpTime]
  · intro now hnow
    have hle : (now : Int) ≤ jwt.float64 ((t + 900 : Nat) : Int) := by
      rw [hexpf]
      exact_mod_cast hnow
    unfold api.authTokenMiddleware
    simp only [ParseWithClaims_issued hmac secretKey now userID _ hne _ hinit, if_pos hle]
    simp [List.lookup, float64_of_small userID hid]
  · intro now hnow
    have hle : ¬ (now : Int) ≤ jwt.float64 ((t + 900 : Nat) : Int) := by
      rw [hexpf]
      exact_mod_cast Nat.not_le.2 hnow
    unfold api.authTokenMiddleware
    simp only [ParseWithClaims_issued hmac secretKey now userID _ hne _ hinit, if_neg hle]
    exact ⟨GoError.external "Token is expired", by simp⟩

/-- A token issued at time 1000 for user 7 under the secret of the tests. -/
theorem accessToken_lifetime_witness :
    ∃ tok : jwt.Compact,
      api.generateAccessToken api.sampleHmac 1000 7 "test_secret_key"
        = Except.ok (jwt.TokenString.compact tok) ∧
      tok.alg = some "HS512" ∧
      tok.claims = [("sub", jwt.Value.number 7),
                    ("exp", jwt.Value.number ((1000 + 900 : Nat) : Int))] ∧
      (∀ now : Nat, now ≤ 1000 + 900 →
        api.authTokenMiddleware api.sampleHmac "test_secret_key" now
          (some (jwt.TokenString.compact tok)) = api.AuthOutcome.next 7) ∧
      (∀ now : Nat, 1000 + 900 < now →
        ∃ err, api.authTokenMiddleware api.sampleHmac "test_secret_key" now
          (some (jwt.TokenString.compact tok)) = api.AuthOutcome.unauthorized (some err)) :=
  accessToken_lifetime api.sampleHmac 7 "test_secret_key" 1000 (by decide) (by decide)

/-- C11, as stated, fails twice.  A token issued at time 0 for user 7 expires at 900 and is
still passed on at time 900; and the subject extracted from a token issued for the user id
`2 ^ 53 + 1` is `2 ^ 53`. -/
theorem accessToken_boundary_and_rounding :
    (∀ hmac : jwt.Hmac, ∀ tok,
      api.generateAccessToken hmac 0 7 "test_secret_key" = Except.ok tok →
      api.authTokenMiddleware hmac "test_secret_key" 900 (some tok) = api.AuthOutcome.next 7) ∧
    (∀ hmac : jwt.Hmac, ∀ tok,
      api.generateAccessToken hmac 0 (2 ^ 53 + 1) "test_secret_key" = Except.ok tok →
      api.authTokenMiddleware hmac "test_secret_key" 840 (some tok)
        = api.AuthOutcome.next (2 ^ 53)) ∧
    ((2 : Int) ^ 53 ≠ 2 ^ 53 + 1) := by
  have hinit : ∀ k ∈ ["exp", "iat", "nbf"],
      List.lookup k ([("sub", jwt.Value.other)] : jwt.MapClaims) = none := by
    decide
  have h900 : jwt.float64 (900 : Int) = 900 := by decide
  have hbig : jwt.float64 9007199254740993 = 9007199254740992 := by decide
  refine ⟨?_, ?_, by decide⟩
  · intro hmac tok htok
    simp [api.generateAccessToken, jwt.SignedString, jwt.Method.Sign, jwt.SigningMethodHS512,
      jwt.Method.Alg, api.accessTokenExpTime] at htok
    subst htok
    unfold api.authTokenMiddleware
    simp only [ParseWithClaims_issued hmac "test_secret_key" 900 7 900 (by rw [h900]; decide)
      _ hinit]
    simp [h900, List.lookup]
    decide
  · intro hmac tok htok
    simp [api.generateAccessToken, jwt.SignedString, jwt.Method.Sign, jwt.SigningMethodHS512,
      jwt.Method.Alg, api.accessTokenExpTime] at htok
    subst htok
    unfold api.authTokenMiddleware
    simp only [ParseWithClaims_issued hmac "test_secret_key" 840 9007199254740993 900
      (by rw [h900]; decide) _ hinit]
    simp [h900, List.lookup, hbig]


/-! ### `ValidateAccessToken` -/

/-- The parser returns a nil error exactly when it marks the token valid. -/
theorem ParseWithClaims_err_none_iff (hmac : jwt.Hmac) (now : Int)
    (tokenString : jwt.TokenString) (claims : jwt.MapClaims)
    (keyFunc : jwt.Method → Except GoError String) :
    (jwt.ParseWithClaims hmac now tokenString claims keyFunc).err = none ↔
    (jwt.ParseWithClaims hmac now tokenString claims keyFunc).Valid = true := by
  cases tokenString with
  | malformed raw => simp [jwt.ParseWithClaims]
  | compact c =>
    obtain ⟨calg, cclaims, csig⟩ := c
    cases calg with
    | none => simp [jwt.ParseWithClaims]
    | some alg =>
      cases hm : jwt.GetSigningMethod alg with
      | none => simp [jwt.ParseWithClaims, hm]
      | some method =>
        cases hk : keyFunc method with
        | error e => simp [jwt.ParseWithClaims, hm, hk]
        | ok key =>
          cases hv : method.Verify hmac (some alg, cclaims) csig key with
          | some e => simp [jwt.ParseWithClaims, hm, hk, hv]
          | none =>
            cases hc : jwt.MapClaims.Valid (cclaims ++ claims) now <;>
              simp [jwt.ParseWithClaims, hm, hk, hv, hc]

/-- The name under which a method is registered is the name it reports. -/
theorem GetSigningMethod_Alg (alg : String) (method : jwt.Method)
    (h : jwt.GetSigningMethod alg = some method) : method.Alg = alg := by
  unfold jwt.GetSigningMethod at h
  split at h
  · cases h; rfl
  · split at h
    · cases h; simp_all [jwt.Method.Alg]
    · split at h
      · cases h; rfl
      · cases h

/-- C12: a token whose header algorithm is not `HS512` (missing, unknown, `none`, another
method), or whose signature is not the `HS512` keyed hash of its first two segments under the
`SecretKey` of the validator (as for a token signed with a secret giving another hash), is
refused by `ValidateAccessToken` with an error, whatever its claims and the time. -/
theorem ValidateAccessToken_rejects (hmac : jwt.Hmac) (SecretKey : String) (now : Nat)
    (c : jwt.Compact)
    (h : c.alg ≠ some "HS512" ∨ c.signature ≠ hmac "HS512" SecretKey (c.alg, c.claims)) :
    token.ValidateAccessToken hmac SecretKey now (jwt.TokenString.compact c)
      = Except.error token.ErrTokenValidation := by
  have herr : (jwt.Parse hmac (now : Int) (jwt.TokenString.compact c)
      (token.keyFunc SecretKey)).err.isSome = true := by
    obtain ⟨calg, cclaims, csig⟩ := c
    unfold jwt.Parse jwt.ParseWithClaims
    cases calg with
    | none => simp
    | some alg =>
      cases hm : jwt.GetSigningMethod alg with
      | none => simp [hm]
      | some method =>
        have hAlg := GetSigningMethod_Alg alg method hm
        by_cases h512 : alg = "HS512"
        · subst h512
          have hmeth : method = jwt.Method.HMAC "HS512" := by
            simpa [jwt.GetSigningMethod] using hm.symm
          subst hmeth
          have hsig : csig ≠ hmac "HS512" SecretKey (some "HS512", cclaims) := by
            rcases h with h | h
            · exact absurd rfl h
            · exact h
          simp [hm, token.keyFunc, jwt.Method.Alg, jwt.SigningMethodHS512, jwt.Method.Verify,
            hsig]
        · have hAlg2 : ¬ method.Alg = "HS512" := by rw [hAlg]; exact h512
          simp [hm, token.keyFunc, jwt.SigningMethodHS512, hAlg2,
            show (jwt.Method.HMAC "HS512").Alg = "HS512" from rfl]
  simp [token.ValidateAccessToken, herr]

/-- Two tokens with claims that are in order at time 1000 (`sub` 7, `exp` 1900): one with
algorithm `none` and an empty signature, one signed under `HS512` with another secret. -/
theorem ValidateAccessToken_rejects_witness :
    token.ValidateAccessToken api.sampleHmac "test_secret_key" 1000
        (jwt.TokenString.compact
          { alg := some "none",
            claims := [("sub", jwt.Value.number 7), ("exp", jwt.Value.number 1900)],
            signature := "" })
      = Except.error token.ErrTokenValidation ∧
    token.ValidateAccessToken api.sampleHmac "test_secret_key" 1000
        (jwt.TokenString.compact
          { alg := some "HS512",
            claims := [("sub", jwt.Value.number 7), ("exp", jwt.Value.number 1900)],
            signature := api.sampleHmac "HS512" "another_secret"
              (some "HS512", [("sub", jwt.Value.number 7), ("exp", jwt.Value.number 1900)]) })
      = Except.error token.ErrTokenValidation :=
  ⟨ValidateAccessToken_rejects api.sampleHmac "test_secret_key" 1000 _ (Or.inl (by decide)),
   ValidateAccessToken_rejects api.sampleHmac "test_secret_key" 1000 _ (Or.inr (by decide))⟩

/-- C13: `ValidateAccessToken` either returns claims or fails with exactly
`ErrTokenValidation`, a value that wraps no other error; the parser returns a nil error only
for a token it marks valid, so the final return of `ErrInvalidToken` is never reached. -/
theorem ValidateAccessToken_error_generic (hmac : jwt.Hmac) (SecretKey : String) (now : Nat)
    (tokenString : jwt.TokenString) :
    ((∃ claims, token.ValidateAccessToken hmac SecretKey now tokenString = Except.ok claims) ∨
      token.ValidateAccessToken hmac SecretKey now tokenString
        = Except.error token.ErrTokenValidation) ∧
    token.ValidateAccessToken hmac SecretKey now tokenString
      ≠ Except.error token.ErrInvalidToken ∧
    (∀ target, errorsIs token.ErrTokenValidation target = true →
      target = token.ErrTokenValidation) ∧
    ((jwt.Parse hmac (now : Int) tokenString (token.keyFunc SecretKey)).err = none ↔
      (jwt.Parse hmac (now : Int) tokenString (token.keyFunc SecretKey)).Valid = true) := by
  have hiff := ParseWithClaims_err_none_iff hmac (now : Int) tokenString []
    (token.keyFunc SecretKey)
  have hcases : (∃ claims, token.ValidateAccessToken hmac SecretKey now tokenString
        = Except.ok claims) ∨
      token.ValidateAccessToken hmac SecretKey now tokenString
        = Except.error token.ErrTokenValidation := by
    unfold token.ValidateAccessToken jwt.Parse
    cases herr : (jwt.ParseWithClaims hmac (now : Int) tokenString []
        (token.keyFunc SecretKey)).err with
    | some e => right; simp [herr]
    | none =>
      left
      have hv := hiff.1 herr
      simp [herr, hv]
  refine ⟨hcases, ?_, ?_, hiff⟩
  · rcases hcases with ⟨claims, hc⟩ | hc
    · rw [hc]; simp
    · rw [hc]; simp [token.ErrTokenValidation, token.ErrInvalidToken]
  · intro target ht
    simpa [errorsIs, token.ErrTokenValidation, eq_comm] using ht

/-! ### Base64 -/

theorem decodeChar_encodeChar (i : Nat) (h : i < 64) :
    base64.decodeChar (base64.encodeChar i) = some i := by
  interval_cases i <;> rfl

theorem encodeChar_ne_break (i : Nat) (h : i < 64) :
    base64.encodeChar i ≠ '\r' ∧ base64.encodeChar i ≠ '\n' := by
  interval_cases i <;> decide

theorem decodeChar_pad : base64.decodeChar '=' = none := by decide

/-- Decoding undoes encoding, group by group. -/
theorem decodeQuanta_encodeList (bs : List Nat) (h : ∀ b ∈ bs, b < 256) :
    base64.decodeQuanta (base64.encodeList bs) = some bs := by
  induction bs using base64.encodeList.induct with
  | case1 => rfl
  | case2 a =>
    have ha : a < 256 := h a (by simp)
    have h0 := decodeChar_encodeChar (a / 4) (by omega)
    have h1 := decodeChar_encodeChar (a % 4 * 16) (by omega)
    simp only [base64.encodeList, base64.decodeQuanta, h0, h1, decodeChar_pad]
    simp
    omega
  | case3 a b =>
    have ha : a < 256 := h a (by simp)
    have hb : b < 256 := h b (by simp)
    have h0 := decodeChar_encodeChar (a / 4) (by omega)
    have h1 := decodeChar_encodeChar (a % 4 * 16 + b / 16) (by omega)
    have h2 := decodeChar_encodeChar (b % 16 * 4) (by omega)
    simp only [base64.encodeList, base64.decodeQuanta, h0, h1, h2, decodeChar_pad]
    simp
    omega
  | case4 a b c rest ih =>
    have ha : a < 256 := h a (by simp)
    have hb : b < 256 := h b (by simp)
    have hc : c < 256 := h c (by simp)
    have hrest : ∀ x ∈ rest, x < 256 := fun x hx => h x (by simp [hx])
    have h0 := decodeChar_encodeChar (a / 4) (by omega)
    have h1 := decodeChar_encodeChar (a % 4 * 16 + b / 16) (by omega)
    have h2 := decodeChar_encodeChar (b % 16 * 4 + c / 64) (by omega)
    have h3 := decodeChar_encodeChar (c % 64) (by omega)
    simp only [base64.encodeList, base64.decodeQuanta, h0, h1, h2, h3, ih hrest]
    simp
    omega

/-- The encoded text has no line breaks. -/
theorem encodeList_no_break (bs : List Nat) (h : ∀ b ∈ bs, b < 256) :
    ∀ c ∈ base64.encodeList bs, c ≠ '\r' ∧ c ≠ '\n' := by
  induction bs using base64.encodeList.induct with
  | case1 => simp [base64.encodeList]
  | case2 a =>
    have ha : a < 256 := h a (by simp)
    have h0 := encodeChar_ne_break (a / 4) (by omega)
    have h1 := encodeChar_ne_break (a % 4 * 16) (by omega)
    intro c hc
    simp only [base64.encodeList, List.mem_cons, List.mem_singleton] at hc
    rcases hc with rfl | rfl | rfl | rfl | hc
    · exact h0
    · exact h1
    · decide
    · decide
    · simp at hc
  | case3 a b =>
    have ha : a < 256 := h a (by simp)
    have hb : b < 256 := h b (by simp)
    have h0 := encodeChar_ne_break (a / 4) (by omega)
    have h1 := encodeChar_ne_break (a % 4 * 16 + b / 16) (by omega)
    have h2 := encodeChar_ne_break (b % 16 * 4) (by omega)
    intro c hc
    simp only [base64.encodeList, List.mem_cons, List.mem_singleton] at hc
    rcases hc with rfl | rfl | rfl | rfl | hc
    · exact h0
    · exact h1
    · exact h2
    · decide
    · simp at hc
  | case4 a b c rest ih =>
    have ha : a < 256 := h a (by simp)
    have hb : b < 256 := h b (by simp)
    have hc : c < 256 := h c (by simp)
    have hrest : ∀ x ∈ rest, x < 256 := fun x hx => h x (by simp [hx])
    have h0 := encodeChar_ne_break (a / 4) (by omega)
    have h1 := encodeChar_ne_break (a % 4 * 16 + b / 16) (by omega)
    have h2 := encodeChar_ne_break (b % 16 * 4 + c / 64) (by omega)
    have h3 := encodeChar_ne_break (c % 64) (by omega)
    intro x hx
    simp only [base64.encodeList, List.mem_cons] at hx
    rcases hx with rfl | rfl | rfl | rfl | hx
    · exact h0
    · exact h1
    · exact h2
    · exact h3
    · exact ih hrest x hx

/-- The round trip of `encoding/base64`: `DecodeString` gives back the bytes that
`EncodeToString` was given. -/
theorem DecodeString_EncodeToString (bs : List Nat) (h : ∀ b ∈ bs, b < 256) :
    base64.DecodeString (base64.EncodeToString bs) = Except.ok bs := by
  have hfilter : (base64.encodeList bs).filter (fun c => c ≠ '\r' ∧ c ≠ '\n')
      = base64.encodeList bs := by
    rw [List.filter_eq_self]
    intro c hc
    have := encodeList_no_break bs h c hc
    simp [this.1, this.2]
  unfold base64.DecodeString base64.EncodeToString
  simp only [hfilter, decodeQuanta_encodeList bs h]

/-- The encoded text has four characters for every three bytes, rounded up. -/
theorem EncodeToString_length (bs : List Nat) :
    (base64.EncodeToString bs).length = 4 * ((bs.length + 2) / 3) := by
  have : (base64.encodeList bs).length = 4 * ((bs.length + 2) / 3) := by
    induction bs using base64.encodeList.induct with
    | case1 => rfl
    | case2 a => simp [base64.encodeList]
    | case3 a b => simp [base64.encodeList]
    | case4 a b c rest ih =>
      simp only [base64.encodeList, List.length_cons, ih]
      omega
  simpa [base64.EncodeToString, String.length] using this


/-! ### Token issue and refresh tokens -/

/-- C14, as stated, fails: with the empty secret, a random source that delivers and a hash
that succeeds, `generateTokens` returns tokens and a nil error; the access token is signed
with the empty key. -/
theorem generateTokens_empty_secret_succeeds :
    api.generateTokens api.sampleHmac 1000 (Except.ok api.sampleRandom) api.sampleGenerate 7 ""
      = Except.ok
          { ID := 7,
            RefreshToken := "AAECAwQFBgcICQoLDA0ODxAREhMUFRYXGBkaGxwdHh8=",
            HashedRefreshToken := "CkFBRUNBd1FGQmdjSUNRb0xEQTBPRHhBUkVoTVVGUllYR0JrYUd4d2RIaDg9",
            AccessToken := jwt.TokenString.compact
              { alg := some "HS512",
                claims := [("sub", jwt.Value.number 7), ("exp", jwt.Value.number 1900)],
                signature := api.sampleHmac "HS512" ""
                  (some "HS512",
                    [("sub", jwt.Value.number 7), ("exp", jwt.Value.number 1900)]) } } := by
  rfl

/-- C14 (amended): the empty secret is not rejected.  `generateAccessToken` with the empty
secret returns an `HS512` token signed with the empty key and no error, and `generateTokens`
with the empty secret returns tokens whenever `generateRefreshToken` succeeds; it fails, with
the error of `generateRefreshToken` and no tokens, only when the random source or the hash
fails. -/
theorem generateTokens_empty_secret (hmac : jwt.Hmac) (now : Nat)
    (random : Except GoError (List Nat)) (generate : String → Nat → Except GoError (List Nat))
    (userID : Int) :
    api.generateAccessToken hmac now userID ""
      = Except.ok (jwt.TokenString.compact
          { alg := some "HS512",
            claims := [("sub", jwt.Value.number userID),
                       ("exp", jwt.Value.number ((now + 900 : Nat) : Int))],
            signature := hmac "HS512" ""
              (some "HS512", [("sub", jwt.Value.number userID),
                ("exp", jwt.Value.number ((now + 900 : Nat) : Int))]) }) ∧
    (∀ refreshToken hashedRefreshToken,
      api.generateRefreshToken random generate = Except.ok (refreshToken, hashedRefreshToken) →
      ∃ accessToken, api.generateTokens hmac now random generate userID ""
        = Except.ok { ID := userID, RefreshToken := refreshToken,
                      HashedRefreshToken := hashedRefreshToken,
                      AccessToken := accessToken }) ∧
    (∀ err, api.generateRefreshToken random generate = Except.error err →
      api.generateTokens hmac now random generate userID "" = Except.error err) := by
  have hacc : api.generateAccessToken hmac now userID ""
      = Except.ok (jwt.TokenString.compact
          { alg := some "HS512",
            claims := [("sub", jwt.Value.number userID),
                       ("exp", jwt.Value.number ((now + 900 : Nat) : Int))],
            signature := hmac "HS512" ""
              (some "HS512", [("sub", jwt.Value.number userID),
                ("exp", jwt.Value.number ((now + 900 : Nat) : Int))]) }) := by
    simp [api.generateAccessToken, jwt.SignedString, jwt.Method.Sign, jwt.SigningMethodHS512,
      jwt.Method.Alg, api.accessTokenExpTime]
  refine ⟨hacc, ?_, ?_⟩
  · intro refreshToken hashedRefreshToken hr
    rw [api.generateTokens, hacc, hr]
    exact ⟨_, rfl⟩
  · intro err hr
    simp [api.generateTokens, hacc, hr]

/-- C15, as stated, fails in its last part: `generateRefreshToken` asks the hash function for
cost 10 (`bcrypt.DefaultCost`), while `Insert` asks it for cost 12 (`bcryptCost`). -/
theorem refreshToken_cost_differs :
    (∀ (generate : String → Nat → Except GoError (List Nat)) (random : List Nat),
      api.generateRefreshToken (Except.ok random) generate
        = match generate (base64.EncodeToString random) 10 with
          | Except.error err =>
              Except.error (GoError.Errorf "error during generatind refresh toke: %w" err)
          | Except.ok hashed =>
              Except.ok (base64.EncodeToString random, base64.EncodeToString hashed)) ∧
    (∀ (generate : String → Nat → Except GoError String) (fault : Faults)
        (createdAt updatedAt : Nat) (nextID : Int) (t : Table),
      (data.Insert generate fault createdAt updatedAt nextID t
          (api.payloadWith "longenoughpassword").toUser).hashCalls
        = [("longenoughpassword", 12)]) ∧
    (10 : Nat) ≠ 12 := by
  refine ⟨?_, ?_, by decide⟩
  · intro generate random
    simp only [api.generateRefreshToken, api.bcryptDefaultCost]
  · intro generate fault createdAt updatedAt nextID t
    have hlen : ¬ "longenoughpassword".utf8ByteSize < 8 := by decide
    have hpw : (api.payloadWith "longenoughpassword").toUser.Password
        = "longenoughpassword" := rfl
    unfold data.Insert
    rw [hpw, if_neg (by simpa [passMinLength] using hlen)]
    cases generate "longenoughpassword" bcryptCost with
    | error e => simp [bcryptCost]
    | ok h => cases fault 0 <;> simp [bcryptCost]

/-- C15 (amended): for 32 bytes from the random source, a hash that `bcrypt` returns for the
encoded token at cost 10 and that `bcrypt` accepts for it, `generateRefreshToken` returns the
standard base64 text of the 32 bytes (44 characters, decoding back to the same bytes) and the
base64 text of the hash, `validateRefreshToken` on the two returns nil, and the cost is
`bcrypt.DefaultCost`, 10, not the 12 of `Insert`. -/
theorem generateRefreshToken_roundtrip (random : List Nat)
    (generate : String → Nat → Except GoError (List Nat))
    (compare : List Nat → String → Option GoError) (hash : List Nat)
    (hlen : random.length = 32) (hbytes : ∀ b ∈ random, b < 256)
    (hgen : generate (base64.EncodeToString random) api.bcryptDefaultCost = Except.ok hash)
    (hhash : ∀ b ∈ hash, b < 256)
    (hcmp : compare hash (base64.EncodeToString random) = none) :
    api.generateRefreshToken (Except.ok random) generate
      = Except.ok (base64.EncodeToString random, base64.EncodeToString hash) ∧
    (base64.EncodeToString random).length = 44 ∧
    base64.DecodeString (base64.EncodeToString random) = Except.ok random ∧
    api.validateRefreshToken compare (base64.EncodeToString hash)
      (base64.EncodeToString random) = none ∧
    api.bcryptDefaultCost = 10 ∧ data.bcryptCost = 12 := by
  refine ⟨?_, ?_, DecodeString_EncodeToString random hbytes, ?_, rfl, rfl⟩
  · simp [api.generateRefreshToken, hgen]
  · rw [EncodeToString_length, hlen]
  · simp [api.validateRefreshToken, DecodeString_EncodeToString hash hhash, hcmp]

/-- The bytes 0 to 31 with the stand-in hash functions. -/
theorem generateRefreshToken_roundtrip_witness :
    api.generateRefreshToken (Except.ok api.sampleRandom) api.sampleGenerate
      = Except.ok (base64.EncodeToString api.sampleRandom,
          base64.EncodeToString
            (10 :: (base64.EncodeToString api.sampleRandom).data.map
              (fun c : Char => c.toNat % 256))) ∧
    (base64.EncodeToString api.sampleRandom).length = 44 ∧
    base64.DecodeString (base64.EncodeToString api.sampleRandom)
      = Except.ok api.sampleRandom ∧
    api.validateRefreshToken api.sampleCompare
      (base64.EncodeToString
        (10 :: (base64.EncodeToString api.sampleRandom).data.map (fun c : Char => c.toNat % 256)))
      (base64.EncodeToString api.sampleRandom) = none ∧
    api.bcryptDefaultCost = 10 ∧ data.bcryptCost = 12 :=
  generateRefreshToken_roundtrip api.sampleRandom api.sampleGenerate api.sampleCompare
    (10 :: (base64.EncodeToString api.sampleRandom).data.map (fun c : Char => c.toNat % 256))
    (by decide) (by decide) rfl (by decide) (by decide)

/-- C16, as stated, fails: for the stored value `!`, which is not base64 text, the error of
`validateRefreshToken` is the decoding error, not an `invalid refresh token` error. -/
theorem validateRefreshToken_corrupt_hash :
    (∀ compare : List Nat → String → Option GoError,
      api.validateRefreshToken compare "!" "AAECAwQFBgcICQoLDA0ODxAREhMUFRYXGBkaGxwdHh8="
        = some (GoError.Errorf "error during decoding hashed refresh token: %w"
            base64.CorruptInputError)) ∧
    (∀ err, GoError.Errorf "error during decoding hashed refresh token: %w"
        base64.CorruptInputError ≠ GoError.Errorf "invalid refresh token: %w" err) := by
  refine ⟨?_, ?_⟩
  · intro compare
    have h : base64.DecodeString "!" = Except.error base64.CorruptInputError := rfl
    simp [api.validateRefreshToken, h]
  · intro err h
    injection h with h1 _
    exact absurd h1 (by decide)

/-- C16 (amended): `validateRefreshToken` returns nil, or, when the stored value is not base64
text, the error `error during decoding hashed refresh token` wrapping the decoding error, or,
when the stored value decodes and the comparison fails, the error `invalid refresh token`
wrapping the error of the comparison. -/
theorem validateRefreshToken_errors (compare : List Nat → String → Option GoError)
    (hashedRefreshToken refreshToken : String) :
    (∃ bytes, base64.DecodeString hashedRefreshToken = Except.ok bytes ∧
      compare bytes refreshToken = none ∧
      api.validateRefreshToken compare hashedRefreshToken refreshToken = none) ∨
    (∃ err, base64.DecodeString hashedRefreshToken = Except.error err ∧
      api.validateRefreshToken compare hashedRefreshToken refreshToken
        = some (GoError.Errorf "error during decoding hashed refresh token: %w" err)) ∨
    (∃ bytes err, base64.DecodeString hashedRefreshToken = Except.ok bytes ∧
      compare bytes refreshToken = some err ∧
      api.validateRefreshToken compare hashedRefreshToken refreshToken
        = some (GoError.Errorf "invalid refresh token: %w" err)) := by
  unfold api.validateRefreshToken
  cases hd : base64.DecodeString hashedRefreshToken with
  | error err => right; left; exact ⟨err, rfl, rfl⟩
  | ok bytes =>
    cases hc : compare bytes refreshToken with
    | none => left; exact ⟨bytes, rfl, hc, by simp [hc]⟩
    | some err => right; right; exact ⟨bytes, err, rfl, hc, by simp [hc]⟩

/-! ### `Authenticate` -/

/-- The user that `EmailCheck` returns has the zero id: the query does not select `id`. -/
theorem EmailCheck_ID (fault : Faults) (t : Table) (email : String) (user : User)
    (h : (EmailCheck fault t email).1 = some user) : user.ID = 0 := by
  unfold EmailCheck at h
  cases h0 : fault 0 with
  | some e => simp [h0] at h
  | none =>
    cases he : existsEmail t email with
    | false => simp [h0, he] at h
    | true =>
      cases h1 : fault 1 with
      | some e => simp [h0, he, h1] at h
      | none =>
        cases hf : t.find? (fun r => r.Email == email) with
        | none => simp [h0, he, h1, hf] at h
        | some r =>
          simp [h0, he, h1, hf] at h
          rw [← h]
          rfl

/-- The access token that `generateTokens` returns carries the user id it was given as its
subject. -/
theorem generateTokens_subject (hmac : jwt.Hmac) (now : Nat)
    (random : Except GoError (List Nat)) (generate : String → Nat → Except GoError (List Nat))
    (userID : Int) (secretKey : String) (userData : api.UserData)
    (h : api.generateTokens hmac now random generate userID secretKey = Except.ok userData) :
    ∃ tok, userData.AccessToken = jwt.TokenString.compact tok ∧
      tok.claims.lookup "sub" = some (jwt.Value.number userID) := by
  unfold api.generateTokens at h
  simp only [api.generateAccessToken, jwt.SignedString, jwt.Method.Sign,
    jwt.SigningMethodHS512] at h
  cases hr : api.generateRefreshToken random generate with
  | error e => simp [hr] at h
  | ok p =>
    obtain ⟨rt, hrt⟩ := p
    simp [hr] at h
    rw [← h]
    exact ⟨_, rfl, by simp [List.lookup]⟩

/-- C17: with `EmailCheck` of the data layer behind the handler, every cookie that
`Authenticate` sets is the `accessToken` cookie of a token whose subject claim is 0, whatever
the id of the account that authenticated. -/
theorem Authenticate_subject_zero (hmac : jwt.Hmac) (random : Except GoError (List Nat))
    (generate : String → Nat → Except GoError (List Nat))
    (compare : List Nat → String → Option GoError) (secretKey : String) (now cookieNow : Nat)
    (repo : api.Repository) (fault : Faults) (t : Table)
    (body : Except GoError api.AuthenticatePayload) (writeFault : Option GoError)
    (hrepo : repo.EmailCheck = EmailCheck fault t) :
    ∀ ck ∈ (api.Authenticate hmac random generate compare secretKey now cookieNow repo body
        writeFault).cookies,
      ck.Name = "accessToken" ∧ ck.subject = some (jwt.Value.number 0) := by
  intro ck hck
  unfold api.Authenticate at hck
  cases body with
  | error e => simp at hck
  | ok payload =>
    simp only [hrepo] at hck
    rcases hec : EmailCheck fault t payload.Email with ⟨ou, oe⟩
    rw [hec] at hck
    cases oe with
    | some e => simp at hck
    | none =>
      cases ou with
      | none => simp at hck
      | some user =>
        have hid : user.ID = 0 := EmailCheck_ID fault t payload.Email user (by rw [hec])
        rcases hpm : repo.PasswordMatches payload.Password user with ⟨valid, perr⟩
        simp only [hpm] at hck
        split at hck
        · simp at hck
        · cases hg : api.generateTokens hmac now random generate user.ID secretKey with
          | error e => simp [hg] at hck
          | ok userData =>
            obtain ⟨tok, htok, hsub⟩ :=
              generateTokens_subject hmac now random generate user.ID secretKey userData hg
            have hmem : ck = (⟨"accessToken", userData.AccessToken, "/", true, true, "Strict",
                cookieNow + api.cookieTimeExpire⟩ : api.Cookie) := by
              simp only [hg] at hck
              split at hck
              · simpa using hck
              · split at hck <;> simpa using hck
            subst hmem
            refine ⟨rfl, ?_⟩
            simp [api.Cookie.subject, htok, hsub, hid]

/-- The failing run of C17: the account with id 5 authenticates with its email and password;
the answer is 202 and the one cookie set carries the subject 0. -/
theorem Authenticate_subject_zero_witness :
    userC ∈ [userA, userC] ∧ userC.ID = 5 ∧
    api.statusCode (api.Authenticate api.sampleHmac (Except.ok api.sampleRandom)
      api.sampleGenerate api.sampleCompare "test_secret_key" 1000 1000
      (api.tableRepository [userA, userC])
      (Except.ok { Email := "test@example.com", Password := "correct_password" })
      none).response = some 202 ∧
    (api.Authenticate api.sampleHmac (Except.ok api.sampleRandom)
      api.sampleGenerate api.sampleCompare "test_secret_key" 1000 1000
      (api.tableRepository [userA, userC])
      (Except.ok { Email := "test@example.com", Password := "correct_password" })
      none).cookies.length = 1 ∧
    ∀ ck ∈ (api.Authenticate api.sampleHmac (Except.ok api.sampleRandom)
      api.sampleGenerate api.sampleCompare "test_secret_key" 1000 1000
      (api.tableRepository [userA, userC])
      (Except.ok { Email := "test@example.com", Password := "correct_password" })
      none).cookies,
      ck.Name = "accessToken" ∧ ck.subject = some (jwt.Value.number 0) :=
  ⟨by decide, rfl, by rfl, by rfl,
    Authenticate_subject_zero api.sampleHmac (Except.ok api.sampleRandom) api.sampleGenerate
      api.sampleCompare "test_secret_key" 1000 1000 (api.tableRepository [userA, userC])
      noFault [userA, userC]
      (Except.ok { Email := "test@example.com", Password := "correct_password" }) none rfl⟩

/-! ### The score invariant -/

theorem AddPoints_table (fault : Faults) (now : Nat) (t : Table) (id point : Int) :
    (AddPoints fault now t id point).1 = t ∨
    (AddPoints fault now t id point).1 = updateAddPoints point now id t := by
  unfold AddPoints UserExists execQuery
  cases fault 0 <;> cases existsID t id <;> cases fault 1 <;> simp

theorem Update_table (fault : Faults) (now : Nat) (t : Table) (user : User) :
    (Update fault now t user).1 = t ∨ (Update fault now t user).1 = updateUser user now t := by
  unfold Update UserExists execQuery
  cases fault 0 <;> cases existsID t user.ID <;> cases fault 1 <;> simp

theorem UpdateScore_table (fault : Faults) (now : Nat) (t : Table) (user : User) :
    (UpdateScore fault now t user).1 = t ∨
    (UpdateScore fault now t user).1 = updateUserScore user now t := by
  unfold UpdateScore UserExists execQuery
  cases fault 0 <;> cases existsID t user.ID <;> cases fault 1 <;> simp

theorem DeleteByID_table (fault : Faults) (t : Table) (id : Int) :
    (DeleteByID fault t id).1 = t ∨ (DeleteByID fault t id).1 = deleteUser id t := by
  unfold DeleteByID UserExists execQuery
  cases fault 0 <;> cases existsID t id <;> cases fault 1 <;> simp

theorem RedeemReferrer_table (fault : Faults) (t : Table) (u : Int) (c : String) :
    (RedeemReferrer fault t u c).1 = t ∨
    (RedeemReferrer fault t u c).1 = updateReferrerScore c t ∨
    (RedeemReferrer fault t u c).1 = updateRedeemerScore u (updateReferrerScore c t) := by
  unfold RedeemReferrer UserExists execQuery selectReferrer
  cases fault 0 <;> cases existsReferrer t c <;> cases fault 1 <;> cases existsID t u <;>
    cases fault 2 <;> cases t.find? (fun r => r.ID == u) <;> cases fault 3 <;>
    cases fault 4 <;> simp <;> split <;> simp

theorem Insert_table (generate : String → Nat → Except GoError String) (fault : Faults)
    (createdAt updatedAt : Nat) (nextID : Int) (t : Table) (user : User) :
    ∃ suffix, (data.Insert generate fault createdAt updatedAt nextID t user).table = t ++ suffix ∧
      ∀ r ∈ suffix, r.Score = user.Score := by
  unfold data.Insert
  split
  · exact ⟨[], by simp, by simp⟩
  · cases generate user.Password bcryptCost with
    | error e => exact ⟨[], by simp, by simp⟩
    | ok h =>
      cases fault 0 with
      | some e => exact ⟨[], by simp, by simp⟩
      | none => exact ⟨[_], rfl, by simp⟩

/-- A relation that holds between every row and itself and between every row and its image
under `f` holds row by row between a table and the table or its image. -/
theorem forall₂_of_eq_or_map (R : User → User → Prop) (f : User → User) (t t' : Table)
    (h : t' = t ∨ t' = t.map f) (hrefl : ∀ r, R r r) (hf : ∀ r, R r (f r)) :
    List.Forall₂ R t t' := by
  rcases h with h | h
  · rw [h, List.forall₂_same]
    exact fun r _ => hrefl r
  · rw [h, List.forall₂_map_right_iff, List.forall₂_same]
    exact fun r _ => hf r

/-- Row by row, `RedeemReferrer` lowers no score. -/
theorem RedeemReferrer_score_mono (fault : Faults) (t : Table) (u : Int) (c : String) :
    List.Forall₂ (fun r r' => r.Score ≤ r'.Score) t (RedeemReferrer fault t u c).1 := by
  rcases RedeemReferrer_table fault t u c with h | h | h
  · rw [h, List.forall₂_same]
    exact fun r _ => le_refl _
  · rw [h, updateReferrerScore, List.forall₂_map_right_iff, List.forall₂_same]
    intro r _
    by_cases hc : r.Referrer = c <;> simp [hc]
  · rw [h, updateRedeemerScore, updateReferrerScore, List.map_map,
      List.forall₂_map_right_iff, List.forall₂_same]
    intro r _
    by_cases hc : r.Referrer = c <;> by_cases hu : r.ID = u <;> simp [hc, hu]
    omega

/-- A property of scores that holds in a table holds in every table related to it row by row
by a relation that carries the property over. -/
theorem forall_of_forall₂ (P : User → Prop) (R : User → User → Prop) (t t' : Table)
    (h : List.Forall₂ R t t') (hR : ∀ r r', R r r' → P r → P r') (hP : ∀ r ∈ t, P r) :
    ∀ r' ∈ t', P r' := by
  induction h with
  | nil => simp
  | cons hab _ ih =>
    intro r' hr'
    rcases List.mem_cons.1 hr' with rfl | hr'
    · exact hR _ _ hab (hP _ (by simp))
    · exact ih (fun r hr => hP r (by simp [hr])) r' hr'

/-- Guarded operations keep every score non-negative. -/
theorem GuardedStep_nonneg (t t' : Table) (hs : GuardedStep t t')
    (ht : ∀ r ∈ t, 0 ≤ r.Score) : ∀ r ∈ t', 0 ≤ r.Score := by
  cases hs with
  | insert generate fault createdAt updatedAt nextID _ user h =>
    obtain ⟨suffix, heq, hsuf⟩ := Insert_table generate fault createdAt updatedAt nextID t user
    rw [heq]
    intro r hr
    rcases List.mem_append.1 hr with hr | hr
    · exact ht r hr
    · rw [hsuf r hr]; exact h
  | addPoints fault now _ id point h =>
    refine forall_of_forall₂ (fun r => 0 ≤ r.Score) (fun r r' => r.Score ≤ r'.Score) t _
      (forall₂_of_eq_or_map _ _ t _ (AddPoints_table fault now t id point)
        (fun r => le_refl _) ?_) (fun r r' hrr hr => le_trans hr hrr) ht
    intro r
    by_cases hid : r.ID = id <;> simp [hid, h]
  | redeemReferrer fault _ id referrer =>
    exact forall_of_forall₂ (fun r => 0 ≤ r.Score) (fun r r' => r.Score ≤ r'.Score) t _
      (RedeemReferrer_score_mono fault t id referrer) (fun r r' hrr hr => le_trans hr hrr) ht
  | update fault now _ user =>
    refine forall_of_forall₂ (fun r => 0 ≤ r.Score) (fun r r' => r'.Score = r.Score) t _
      (forall₂_of_eq_or_map _ _ t _ (Update_table fault now t user)
        (fun r => rfl) ?_) (fun r r' hrr hr => by simpa [hrr] using hr) ht
    intro r
    by_cases hid : r.ID = user.ID <;> simp [hid]
  | updateScore fault now _ user h =>
    refine forall_of_forall₂ (fun r => 0 ≤ r.Score)
      (fun r r' => r' = r ∨ r'.Score = user.Score) t _
      (forall₂_of_eq_or_map _ _ t _ (UpdateScore_table fault now t user)
        (fun r => Or.inl rfl) ?_) ?_ ht
    · intro r
      by_cases hid : r.ID = user.ID <;> simp [hid]
    · intro r r' hrr hr
      rcases hrr with hrr | hrr
      · simpa [hrr] using hr
      · simpa [hrr] using h
  | deleteByID fault _ id =>
    rcases DeleteByID_table fault t id with h | h
    · rw [h]; exact ht
    · rw [h]
      intro r hr
      exact ht r (List.mem_of_mem_filter hr)


/-- C18, as stated, fails twice.  `Registrate` hands the score of its payload to `Insert`, which
stores it: from the empty table one registration with score -5 gives a table with the score
-5.  And `UpdateScore` overwrites a score: an account at 100 is set to 3. -/
theorem score_invariant_fails :
    (∀ (repo : api.Repository) (writeFault : Option GoError),
      (api.Registrate repo (Except.ok api.negativeScorePayload) writeFault).calls
        = [api.RepoCall.Insert api.negativeScorePayload.toUser]) ∧
    (data.Insert sampleHash noFault 1 1 1 [] api.negativeScorePayload.toUser).err = none ∧
    (data.Insert sampleHash noFault 1 1 1 [] api.negativeScorePayload.toUser).table.map
      User.Score = [-5] ∧
    (UpdateScore noFault 9 [{ userA with Score := 100 }] { userA with Score := 3 }).2 = none ∧
    (UpdateScore noFault 9 [{ userA with Score := 100 }] { userA with Score := 3 }).1.map
      User.Score = [3] := by
  refine ⟨?_, by decide, by decide, by decide, by decide⟩
  intro repo writeFault
  have hlen : ¬ api.negativeScorePayload.Password.utf8ByteSize < 8 := by decide
  unfold api.Registrate
  simp only [api.atLeastPassLength, if_neg hlen]
  rcases hins : repo.Insert api.negativeScorePayload.toUser with ⟨id, _ | err⟩
  · cases writeFault <;> simp [api.writeJSON]
  · simp

/-- C18 (amended): in every table reached from the empty table by the operations of the
repository, with registrations storing a score that is not negative, `AddPoints` adding an
amount that is not negative and `UpdateScore` writing a score that is not negative, every
score is non-negative.  `Insert` keeps the existing rows as they are, `Update` keeps every
score, `DeleteByID` only removes rows, `AddPoints` with such an amount and `RedeemReferrer`
lower no score, and `UpdateScore` leaves a row as it is or gives it the score it is given. -/
theorem score_invariant_guarded :
    (∀ t, Reachable t → ∀ r ∈ t, 0 ≤ r.Score) ∧
    (∀ (generate : String → Nat → Except GoError String) (fault : Faults)
        (createdAt updatedAt : Nat) (nextID : Int) (t : Table) (user : User),
      ∃ suffix, (data.Insert generate fault createdAt updatedAt nextID t user).table
          = t ++ suffix ∧ ∀ r ∈ suffix, r.Score = user.Score) ∧
    (∀ (fault : Faults) (now : Nat) (t : Table) (user : User),
      List.Forall₂ (fun r r' => r'.Score = r.Score) t (Update fault now t user).1) ∧
    (∀ (fault : Faults) (t : Table) (id : Int), (DeleteByID fault t id).1.Sublist t) ∧
    (∀ (fault : Faults) (now : Nat) (t : Table) (id point : Int), 0 ≤ point →
      List.Forall₂ (fun r r' => r.Score ≤ r'.Score) t (AddPoints fault now t id point).1) ∧
    (∀ (fault : Faults) (t : Table) (id : Int) (referrer : String),
      List.Forall₂ (fun r r' => r.Score ≤ r'.Score) t
        (RedeemReferrer fault t id referrer).1) ∧
    (∀ (fault : Faults) (now : Nat) (t : Table) (user : User),
      List.Forall₂ (fun r r' => r' = r ∨ r'.Score = user.Score) t
        (UpdateScore fault now t user).1) := by
  refine ⟨?_, Insert_table, ?_, ?_, ?_, RedeemReferrer_score_mono, ?_⟩
  · intro t ht
    induction ht with
    | empty => simp
    | step t t' _ hs ih => exact GuardedStep_nonneg t t' hs ih
  · intro fault now t user
    refine forall₂_of_eq_or_map _ _ t _ (Update_table fault now t user) (fun r => rfl) ?_
    intro r
    by_cases hid : r.ID = user.ID <;> simp [hid]
  · intro fault t id
    rcases DeleteByID_table fault t id with h | h
    · rw [h]
    · rw [h]; exact List.filter_sublist t
  · intro fault now t id point hp
    refine forall₂_of_eq_or_map _ _ t _ (AddPoints_table fault now t id point)
      (fun r => le_refl _) ?_
    intro r
    by_cases hid : r.ID = id <;> simp [hid, hp]
  · intro fault now t user
    refine forall₂_of_eq_or_map _ _ t _ (UpdateScore_table fault now t user)
      (fun r => Or.inl rfl) ?_
    intro r
    by_cases hid : r.ID = user.ID <;> simp [hid]

/-- A table reached by one registration with score 0 and one `AddPoints` of 50: its one score
is 50. -/
theorem score_invariant_guarded_witness :
    Reachable (AddPoints noFault 7
      (data.Insert sampleHash noFault 1 1 1 [] (api.payloadWith "longenoughpassword").toUser).table
      1 50).1 ∧
    (AddPoints noFault 7
      (data.Insert sampleHash noFault 1 1 1 [] (api.payloadWith "longenoughpassword").toUser).table
      1 50).1.map User.Score = [50] ∧
    ∀ r ∈ (AddPoints noFault 7
      (data.Insert sampleHash noFault 1 1 1 [] (api.payloadWith "longenoughpassword").toUser).table
      1 50).1, 0 ≤ r.Score :=
  have hreach : Reachable (AddPoints noFault 7
      (data.Insert sampleHash noFault 1 1 1 []
        (api.payloadWith "longenoughpassword").toUser).table 1 50).1 :=
    Reachable.step _ _
      (Reachable.step _ _ Reachable.empty
        (GuardedStep.insert sampleHash noFault 1 1 1 []
          (api.payloadWith "longenoughpassword").toUser (by decide)))
      (GuardedStep.addPoints noFault 7 _ 1 50 (by decide))
  ⟨hreach, by decide, score_invariant_guarded.1 _ hreach⟩

/-! ### Concurrent `AddPoints` calls -/

/-- Two steps of a call are the sequential `AddPoints`, whatever statement fails. -/
theorem stepAddPoints_twice (fault : Faults) (now : Nat) (t : Table) (id point : Int) :
    ((stepAddPoints fault now id point (stepAddPoints fault now id point t CallState.start).1
        (stepAddPoints fault now id point t CallState.start).2).1,
      (stepAddPoints fault now id point (stepAddPoints fault now id point t CallState.start).1
        (stepAddPoints fault now id point t CallState.start).2).2)
    = ((AddPoints fault now t id point).1, CallState.done (AddPoints fault now t id point).2) := by
  cases h0 : fault 0 <;> cases h1 : fault 1 <;> cases h : existsID t id <;>
    simp [stepAddPoints, AddPoints, UserExists, execQuery, h0, h1, h]

theorem doneCount_set (calls : List CallState) (k : Nat) (c c' : CallState)
    (h : calls[k]? = some c) :
    doneCount (calls.set k c') + (if c = CallState.done none then 1 else 0)
      = doneCount calls + (if c' = CallState.done none then 1 else 0) := by
  induction calls generalizing k with
  | nil => simp at h
  | cons x xs ih =>
    cases k with
    | zero =>
      simp at h
      subst h
      simp only [doneCount, List.set_cons_zero, List.count_cons]
      simp only [beq_iff_eq]
      omega
    | succ k =>
      simp at h
      have := ih k h
      simp only [doneCount, List.set_cons_succ, List.count_cons] at this ⊢
      omega

/-- Replacing a call that has not returned nil by one that has not either keeps the number of
calls that have returned nil. -/
theorem doneCount_set_same (calls : List CallState) (k : Nat) (c c' : CallState)
    (h : calls[k]? = some c) (hc : c ≠ CallState.done none) (hc' : c' ≠ CallState.done none) :
    doneCount (calls.set k c') = doneCount calls := by
  have := doneCount_set calls k c c' h
  rw [if_neg hc, if_neg hc'] at this
  omega

/-- Tables with the same ids row by row answer the existence query alike. -/
theorem existsID_of_forall₂ (R : User → User → Prop) (hR : ∀ r r', R r r' → r'.ID = r.ID)
    (t t' : Table) (h : List.Forall₂ R t t') (id : Int) : existsID t' id = existsID t id := by
  induction h with
  | nil => rfl
  | cons hab _ ih =>
    simp only [existsID, List.any_cons] at ih ⊢
    rw [ih, hR _ _ hab]

theorem runSchedule_length (fault : Nat → Faults) (now : Nat → Nat) (id point : Int)
    (schedule : List Nat) (s : Shared) :
    (runSchedule fault now id point schedule s).calls.length = s.calls.length := by
  induction schedule generalizing s with
  | nil => rfl
  | cons k rest ih =>
    unfold runSchedule
    cases hk : s.calls[k]? with
    | none => simpa using ih s
    | some c =>
      simp only []
      rw [ih]
      simp

/-- The update of an `AddPoints (id, point)` call by a call that then returns nil keeps the
relation of the table to the starting table, with one more call counted. -/
theorem forall₂_updateAddPoints (id point : Int) (now n : Nat) (t0 t : Table)
    (h : List.Forall₂ (fun r r' => r'.ID = r.ID ∧
        r'.Score = r.Score + (if r.ID = id then point * (n : Int) else 0)) t0 t) :
    List.Forall₂ (fun r r' => r'.ID = r.ID ∧
        r'.Score = r.Score + (if r.ID = id then point * ((n + 1 : Nat) : Int) else 0))
      t0 (updateAddPoints point now id t) := by
  rw [updateAddPoints, List.forall₂_map_right_iff]
  refine List.Forall₂.imp ?_ h
  intro r r' ⟨h1, h2⟩
  by_cases hid : r.ID = id
  · have hid' : r'.ID = id := by rw [h1, hid]
    simp only [hid, if_true] at h2
    rw [if_pos hid', if_pos hid]
    refine ⟨hid'.trans hid.symm, ?_⟩
    simp only [h2]
    push_cast
    ring
  · have hid' : ¬ r'.ID = id := by rw [h1]; exact hid
    simp only [hid, if_false] at h2
    rw [if_neg hid', if_neg hid]
    exact ⟨h1, h2⟩

/-- The invariant of concurrent `AddPoints (id, point)` calls on a table that starts as `t0`,
whatever statements fail: row by row the ids are those of `t0` and the score of a row with the
id is its score in `t0` plus `point` for every call that has returned nil; and every call is
not started, past a successful existence query that found the id, returned with nil, or
returned with an error in a run in which some statement fails. -/
theorem runSchedule_invariant (fault : Nat → Faults) (now : Nat → Nat) (id point : Int)
    (t0 : Table) (hex : ∃ r ∈ t0, r.ID = id) (schedule : List Nat) (s : Shared)
    (htable : List.Forall₂ (fun r r' => r'.ID = r.ID ∧
        r'.Score = r.Score + (if r.ID = id then point * (doneCount s.calls : Int) else 0))
      t0 s.table)
    (hcalls : ∀ c ∈ s.calls,
      c = CallState.start ∨ c = CallState.checked true ∨ c = CallState.done none ∨
        ((∃ err, c = CallState.done (some err)) ∧ ∃ k j, fault k j ≠ none)) :
    List.Forall₂ (fun r r' => r'.ID = r.ID ∧
        r'.Score = r.Score + (if r.ID = id then
          point * (doneCount (runSchedule fault now id point schedule s).calls : Int) else 0))
      t0 (runSchedule fault now id point schedule s).table ∧
    (∀ c ∈ (runSchedule fault now id point schedule s).calls,
      c = CallState.start ∨ c = CallState.checked true ∨ c = CallState.done none ∨
        ((∃ err, c = CallState.done (some err)) ∧ ∃ k j, fault k j ≠ none)) := by
  induction schedule generalizing s with
  | nil => exact ⟨htable, hcalls⟩
  | cons k rest ih =>
    unfold runSchedule
    cases hk : s.calls[k]? with
    | none => exact ih s htable hcalls
    | some c =>
      have hex' : existsID s.table id = true := by
        rw [existsID_of_forall₂ _ (fun r r' h => h.1) t0 s.table htable id]
        exact (existsID_iff t0 id).2 hex
      have hc := hcalls c (List.getElem?_mem hk)
      have hset : ∀ c', (∀ x ∈ s.calls.set k c', x ∈ s.calls ∨ x = c') := fun c' x hx =>
        List.mem_or_eq_of_mem_set hx
      simp only []
      rcases hc with rfl | rfl | rfl | ⟨⟨err, rfl⟩, hfail⟩
      · cases hf : fault k 0 with
        | none =>
          have hstep : stepAddPoints (fault k) (now k) id point s.table CallState.start
              = (s.table, CallState.checked true) := by
            simp [stepAddPoints, UserExists, hf, hex']
          rw [hstep]
          apply ih
          · rw [doneCount_set_same s.calls k _ _ hk (by simp) (by simp)]
            exact htable
          · intro x hx
            rcases hset _ x hx with hx | hx
            · exact hcalls x hx
            · exact Or.inr (Or.inl hx)
        | some e =>
          have hstep : stepAddPoints (fault k) (now k) id point s.table CallState.start
              = (s.table, CallState.done (some
                  (GoError.Errorf "failed to check user existence (id: %d): %w" e))) := by
            simp [stepAddPoints, UserExists, hf]
          rw [hstep]
          apply ih
          · rw [doneCount_set_same s.calls k _ _ hk (by simp) (by simp)]
            exact htable
          · intro x hx
            rcases hset _ x hx with hx | hx
            · exact hcalls x hx
            · exact Or.inr (Or.inr (Or.inr ⟨⟨_, hx⟩, k, 0, by simp [hf]⟩))
      · cases hf : fault k 1 with
        | none =>
          have hstep : stepAddPoints (fault k) (now k) id point s.table
                (CallState.checked true)
              = (updateAddPoints point (now k) id s.table, CallState.done none) := by
            simp [stepAddPoints, execQuery, hf]
          rw [hstep]
          have hcount := doneCount_set s.calls k (CallState.checked true)
            (CallState.done none) hk
          simp at hcount
          apply ih
          · simp only []
            rw [hcount]
            exact forall₂_updateAddPoints id point (now k) _ t0 s.table htable
          · intro x hx
            rcases hset _ x hx with hx | hx
            · exact hcalls x hx
            · exact Or.inr (Or.inr (Or.inl hx))
        | some e =>
          have hstep : stepAddPoints (fault k) (now k) id point s.table
                (CallState.checked true)
              = (s.table, CallState.done (some ErrAddPointsFailed)) := by
            simp [stepAddPoints, execQuery, hf]
          rw [hstep]
          apply ih
          · rw [doneCount_set_same s.calls k _ _ hk (by simp) (by simp)]
            exact htable
          · intro x hx
            rcases hset _ x hx with hx | hx
            · exact hcalls x hx
            · exact Or.inr (Or.inr (Or.inr ⟨⟨_, hx⟩, k, 1, by simp [hf]⟩))
      · have hstep : stepAddPoints (fault k) (now k) id point s.table (CallState.done none)
            = (s.table, CallState.done none) := rfl
        rw [hstep]
        have hcount := doneCount_set s.calls k (CallState.done none) (CallState.done none) hk
        simp at hcount
        apply ih
        · simp only []
          rw [hcount]
          exact htable
        · intro x hx
          rcases hset _ x hx with hx | hx
          · exact hcalls x hx
          · exact Or.inr (Or.inr (Or.inl hx))
      · have hstep : stepAddPoints (fault k) (now k) id point s.table
              (CallState.done (some err))
            = (s.table, CallState.done (some err)) := rfl
        rw [hstep]
        apply ih
        · rw [doneCount_set_same s.calls k _ _ hk (by simp) (by simp)]
          exact htable
        · intro x hx
          rcases hset _ x hx with hx | hx
          · exact hcalls x hx
          · exact Or.inr (Or.inr (Or.inr ⟨⟨_, hx⟩, hfail⟩))

/-- Rows related to rows of score 0 by a gain of 500 for the id have score 500 at the id. -/
theorem score_500_of_forall₂ (userID : Int) (t0 t : Table)
    (h : List.Forall₂ (fun r r' => r'.ID = r.ID ∧
      r'.Score = r.Score + (if r.ID = userID then 500 else 0)) t0 t)
    (hzero : ∀ r ∈ t0, r.ID = userID → r.Score = 0) :
    ∀ r' ∈ t, r'.ID = userID → r'.Score = 500 := by
  induction h with
  | nil => simp
  | cons hab _ ih =>
    intro r' hr' hrid
    rcases List.mem_cons.1 hr' with rfl | hr'
    · obtain ⟨h1, h2⟩ := hab
      have h3 := h1 ▸ hrid
      rw [h2, hzero _ (by simp) h3, if_pos h3]
      rfl
    · exact ih (fun r hr => hzero r (by simp [hr])) r' hr' hrid

/-- The original wording of C19 fails when a call fails: fifty concurrent `AddPoints (2, 10)`
calls for account B (score 0) under the chain schedule, the existence query of call 0 failing
and every other statement succeeding.  Every call returns, call 0 with the error of
`UserExists` and the other forty-nine with nil, and B ends at 490, not 500. -/
theorem concurrent_AddPoints_failed_call :
    (∃ r ∈ tableAB, r.ID = 2 ∧ r.Score = 0) ∧
    (runSchedule failCallZero (fun k => k) 2 10 chainSchedule
      { table := tableAB, calls := fiftyCalls }).calls.all CallState.isDone = true ∧
    (runSchedule failCallZero (fun k => k) 2 10 chainSchedule
      { table := tableAB, calls := fiftyCalls }).calls.head?
      = some (CallState.done (AddPoints failFirst 0 tableAB 2 10).2) ∧
    (AddPoints failFirst 0 tableAB 2 10).2 ≠ none ∧
    doneCount (runSchedule failCallZero (fun k => k) 2 10 chainSchedule
      { table := tableAB, calls := fiftyCalls }).calls = 49 ∧
    (runSchedule failCallZero (fun k => k) 2 10 chainSchedule
      { table := tableAB, calls := fiftyCalls }).table.map User.Score = [0, 490] := by
  refine ⟨by decide, by decide, by decide, by decide, by decide, by decide⟩

/-- C19 (amended): fifty concurrent `AddPoints (userID, 10)` calls on a table in which the id
exists, with their statements interleaved by any schedule that lets every call return,
whatever statements fail: the ids stay as they were, every row with the id has gained exactly
10 for every call that returned nil (at most 500) and every other score is as before.  When
every call returned nil, and so when no statement fails, the gain is exactly 500, and an
account that starts at 0 ends at exactly 500. -/
theorem concurrent_AddPoints_no_lost_update (fault : Nat → Faults) (now : Nat → Nat)
    (schedule : List Nat) (t0 : Table) (userID : Int)
    (hex : ∃ r ∈ t0, r.ID = userID)
    (hdone : (runSchedule fault now userID 10 schedule
      { table := t0, calls := fiftyCalls }).calls.all CallState.isDone = true) :
    List.Forall₂ (fun r r' => r'.ID = r.ID ∧
        r'.Score = r.Score + (if r.ID = userID then
          10 * (doneCount (runSchedule fault now userID 10 schedule
            { table := t0, calls := fiftyCalls }).calls : Int) else 0))
      t0 (runSchedule fault now userID 10 schedule { table := t0, calls := fiftyCalls }).table ∧
    doneCount (runSchedule fault now userID 10 schedule
      { table := t0, calls := fiftyCalls }).calls ≤ 50 ∧
    ((∀ k j, fault k j = none) →
      ∀ c ∈ (runSchedule fault now userID 10 schedule
        { table := t0, calls := fiftyCalls }).calls, c = CallState.done none) ∧
    ((∀ c ∈ (runSchedule fault now userID 10 schedule
        { table := t0, calls := fiftyCalls }).calls, c = CallState.done none) →
      List.Forall₂ (fun r r' => r'.ID = r.ID ∧
          r'.Score = r.Score + (if r.ID = userID then 500 else 0))
        t0 (runSchedule fault now userID 10 schedule
          { table := t0, calls := fiftyCalls }).table ∧
      ((∀ r ∈ t0, r.ID = userID → r.Score = 0) →
        ∀ r' ∈ (runSchedule fault now userID 10 schedule
          { table := t0, calls := fiftyCalls }).table, r'.ID = userID → r'.Score = 500)) := by
  have hinit : doneCount fiftyCalls = 0 := by decide
  have hinv := runSchedule_invariant fault now userID 10 t0 hex schedule
    { table := t0, calls := fiftyCalls }
    (by
      simp only [hinit]
      rw [List.forall₂_same]
      intro r _
      by_cases hid : r.ID = userID <;> simp [hid])
    (by
      intro c hc
      left
      exact List.eq_of_mem_replicate hc)
  have hlen := runSchedule_length fault now userID 10 schedule
    { table := t0, calls := fiftyCalls }
  have hlen50 : (runSchedule fault now userID 10 schedule
      { table := t0, calls := fiftyCalls }).calls.length = 50 := by
    rw [hlen]
    simp [fiftyCalls]
  refine ⟨hinv.1, ?_, ?_, ?_⟩
  · have := List.count_le_length (CallState.done none) (runSchedule fault now userID 10 schedule
      { table := t0, calls := fiftyCalls }).calls
    unfold doneCount
    omega
  · intro hnf c hc
    have hd := List.all_eq_true.1 hdone c hc
    rcases hinv.2 c hc with rfl | rfl | rfl | ⟨_, k, j, hkj⟩
    · simp [CallState.isDone] at hd
    · simp [CallState.isDone] at hd
    · rfl
    · exact absurd (hnf k j) hkj
  · intro hall
    have hcount : doneCount (runSchedule fault now userID 10 schedule
        { table := t0, calls := fiftyCalls }).calls = 50 := by
      unfold doneCount
      rw [List.count_eq_length.2 (fun c hc => (hall c hc).symm), hlen50]
    have htable : List.Forall₂ (fun r r' => r'.ID = r.ID ∧
          r'.Score = r.Score + (if r.ID = userID then 500 else 0))
        t0 (runSchedule fault now userID 10 schedule
          { table := t0, calls := fiftyCalls }).table := by
      refine List.Forall₂.imp ?_ hinv.1
      intro r r' ⟨h1, h2⟩
      refine ⟨h1, ?_⟩
      rw [h2, hcount]
      norm_num
    exact ⟨htable, fun hzero => score_500_of_forall₂ userID t0 _ htable hzero⟩

/-- Fifty calls for account B (id 2, score 0) under the chain schedule.  With no statement
failing every call returns nil, B ends at 500 and A stays at 0; with the existence query of
call 0 failing, B has gained 10 for each of the forty-nine calls that returned nil. -/
theorem concurrent_AddPoints_no_lost_update_witness :
    ((∀ c ∈ (runSchedule noCallFault (fun k => k) 2 10 chainSchedule
        { table := tableAB, calls := fiftyCalls }).calls, c = CallState.done none) ∧
      List.Forall₂ (fun r r' => r'.ID = r.ID ∧
          r'.Score = r.Score + (if r.ID = 2 then 500 else 0))
        tableAB (runSchedule noCallFault (fun k => k) 2 10 chainSchedule
          { table := tableAB, calls := fiftyCalls }).table ∧
      ((∀ r ∈ tableAB, r.ID = 2 → r.Score = 0) →
        ∀ r' ∈ (runSchedule noCallFault (fun k => k) 2 10 chainSchedule
          { table := tableAB, calls := fiftyCalls }).table, r'.ID = 2 → r'.Score = 500)) ∧
    (runSchedule noCallFault (fun k => k) 2 10 chainSchedule
      { table := tableAB, calls := fiftyCalls }).table.map User.Score = [0, 500] ∧
    List.Forall₂ (fun r r' => r'.ID = r.ID ∧
        r'.Score = r.Score + (if r.ID = 2 then
          10 * (doneCount (runSchedule failCallZero (fun k => k) 2 10 chainSchedule
            { table := tableAB, calls := fiftyCalls }).calls : Int) else 0))
      tableAB (runSchedule failCallZero (fun k => k) 2 10 chainSchedule
        { table := tableAB, calls := fiftyCalls }).table :=
  ⟨⟨(concurrent_AddPoints_no_lost_update noCallFault (fun k => k) chainSchedule tableAB 2
        (by decide) (by decide)).2.2.1 (fun _ _ => rfl),
    (concurrent_AddPoints_no_lost_update noCallFault (fun k => k) chainSchedule tableAB 2
        (by decide) (by decide)).2.2.2
      ((concurrent_AddPoints_no_lost_update noCallFault (fun k => k) chainSchedule tableAB 2
        (by decide) (by decide)).2.2.1 (fun _ _ => rfl))⟩,
   by decide,
   (concurrent_AddPoints_no_lost_update failCallZero (fun k => k) chainSchedule tableAB 2
      (by decide) (by decide)).1⟩

/-! ### `getIDFromRequest` -/

/-- The digit loop reads the digits in base ten, after the number read so far. -/
theorem parseDigits_eq (ds : List Char) (acc : Nat) :
    strconv.parseDigits ds acc =
      if ds.all Char.isDigit then
        some (acc * 10 ^ ds.length
          + Nat.ofDigits 10 (ds.reverse.map (fun c => c.toNat - 48)))
      else none := by
  induction ds generalizing acc with
  | nil => simp [strconv.parseDigits]
  | cons c cs ih =>
    unfold strconv.parseDigits strconv.digitValue
    by_cases hc : c.isDigit = true
    · simp only [hc, if_true, ih, List.all_cons, Bool.true_and]
      by_cases hcs : cs.all Char.isDigit = true
      · simp only [hcs, if_true, List.reverse_cons, List.map_append, List.map_cons, List.map_nil,
          Nat.ofDigits_append, Nat.ofDigits_singleton, List.length_map, List.length_reverse,
          List.length_cons]
        congr 1
        ring
      · simp [hcs]
    · simp [hc]

/-- `Atoi` returns the integer a decimal integer literal denotes when it is in the range of
`int`, and an error for every other text. -/
theorem Atoi_eq (s : String) :
    strconv.Atoi s =
      match strconv.decimalLiteral s with
      | some v =>
        if -(2 ^ 63) ≤ v ∧ v < 2 ^ 63 then Except.ok v
        else Except.error (strconv.NumError strconv.ErrRange)
      | none => Except.error (strconv.NumError strconv.ErrSyntax) := by
  unfold strconv.Atoi strconv.decimalLiteral
  rcases hsplit : strconv.splitSign s.data with ⟨neg, digits⟩
  simp only []
  by_cases hnil : digits = []
  · simp [hnil]
  · simp only [hnil, if_false, parseDigits_eq, ne_eq, not_false_eq_true, true_and, zero_mul,
      zero_add]
    by_cases hall : digits.all Char.isDigit = true
    · simp only [hall, if_true]
      generalize Nat.ofDigits 10 (List.map (fun c => c.toNat - 48) digits.reverse) = n
      cases neg
      · simp only [Bool.false_eq_true, if_false]
        by_cases hr : (2 : Int) ^ 63 ≤ (n : Int)
        · rw [if_pos (Or.inr hr), if_neg (by omega)]
        · rw [if_neg (by omega), if_pos (by omega)]
      · simp only [if_true]
        by_cases hr : -(n : Int) < -(2 ^ 63)
        · rw [if_pos (Or.inl hr), if_neg (by omega)]
        · rw [if_neg (by omega), if_pos (by omega)]
    · simp [hall]


/-- C20, as stated, fails: `9223372036854775808` is a decimal integer literal, of value
`2 ^ 63`, yet `getIDFromRequest` returns 0 with an error and answers 400. -/
theorem getIDFromRequest_out_of_range :
    strconv.decimalLiteral "9223372036854775808" = some (2 ^ 63) ∧
    api.getIDFromRequest "9223372036854775808"
      = ([{ status := 400, body := api.Body.error api.ErrConvertID }], 0,
          some (GoError.Errorf "failed to convert ID param '%s' to int: %w"
            (strconv.NumError strconv.ErrRange))) := by
  constructor
  · decide
  · rfl

/-- C20 (amended): when the parameter is a decimal integer literal (an optional sign, then
one or more decimal digits) whose value is in the range of `int`, from `-2 ^ 63` to
`2 ^ 63 - 1`, `getIDFromRequest` returns that value with a nil error and writes nothing; for
every other text (not a literal, or a literal out of range) it returns 0 with a non-nil error
and writes one response, 400 Bad Request with `ErrConvertID`. -/
theorem getIDFromRequest_spec (idStr : String) :
    (∀ v, strconv.decimalLiteral idStr = some v → -(2 ^ 63) ≤ v → v < 2 ^ 63 →
      api.getIDFromRequest idStr = ([], v, none)) ∧
    ((strconv.decimalLiteral idStr = none ∨
        ∃ v, strconv.decimalLiteral idStr = some v ∧ (v < -(2 ^ 63) ∨ 2 ^ 63 ≤ v)) →
      ∃ err, api.getIDFromRequest idStr
        = ([{ status := 400, body := api.Body.error api.ErrConvertID }], 0, some err) ∧
        api.statusCode (api.getIDFromRequest idStr).1 = some 400) := by
  unfold api.getIDFromRequest
  rw [Atoi_eq]
  constructor
  · intro v hv h1 h2
    simp only [hv]
    rw [if_pos ⟨h1, h2⟩]
  · intro h
    rcases h with h | ⟨v, hv, hr⟩
    · simp only [h]
      exact ⟨_, rfl, rfl⟩
    · have hnot : ¬ (-(2 ^ 63) ≤ v ∧ v < 2 ^ 63) := by omega
      simp only [hv]
      rw [if_neg hnot]
      exact ⟨_, rfl, rfl⟩

/-- The parameters of the test: `123` gives 123 and no response; `abc` and the empty text give
0, an error and status 400. -/
theorem getIDFromRequest_spec_witness :
    api.getIDFromRequest "123" = ([], 123, none) ∧
    (∃ err, api.getIDFromRequest "abc"
        = ([{ status := 400, body := api.Body.error api.ErrConvertID }], 0, some err) ∧
      api.statusCode (api.getIDFromRequest "abc").1 = some 400) ∧
    (∃ err, api.getIDFromRequest ""
        = ([{ status := 400, body := api.Body.error api.ErrConvertID }], 0, some err) ∧
      api.statusCode (api.getIDFromRequest "").1 = some 400) :=
  ⟨(getIDFromRequest_spec "123").1 123 (by decide) (by decide) (by decide),
   (getIDFromRequest_spec "abc").2 (Or.inl (by decide)),
   (getIDFromRequest_spec "").2 (Or.inl (by decide))⟩

/-! ### Task and referral handlers -/

/-- C21: for a well-formed body whose `waterPassword` is not `KUARHODRON`, the handler
`Kuarhodron` calls neither `completeTask` nor the repository and writes nothing at all, so the
status is not 400: the recorder shows the default 200.  The handler calls `completeTask`
exactly when the password is `KUARHODRON`, once and with 10000 points, and its response is
then the response of `completeTask`. -/
theorem Kuarhodron_wrong_password (repo : api.Repository) (idStr : String)
    (payload : api.KuarhodronPayload) (writeFault : Option GoError) :
    (payload.SecretWaterPassword ≠ "KUARHODRON" →
      api.Kuarhodron repo idStr (Except.ok payload) writeFault
        = { result := { response := [], calls := [] }, completeTaskCalls := [] } ∧
      api.statusCode (api.Kuarhodron repo idStr (Except.ok payload) writeFault).result.response
        = none ∧
      api.recordedCode
          (api.Kuarhodron repo idStr (Except.ok payload) writeFault).result.response = 200) ∧
    (api.Kuarhodron repo idStr (Except.ok payload) writeFault).completeTaskCalls
      = (if payload.SecretWaterPassword = "KUARHODRON" then [10000] else []) ∧
    (payload.SecretWaterPassword = "KUARHODRON" →
      (api.Kuarhodron repo idStr (Except.ok payload) writeFault).result
        = api.completeTask repo idStr 10000 writeFault) := by
  refine ⟨?_, ?_, ?_⟩
  · intro h
    have h1 : api.Kuarhodron repo idStr (Except.ok payload) writeFault
        = { result := { response := [], calls := [] }, completeTaskCalls := [] } := by
      simp [api.Kuarhodron, h]
    rw [h1]
    exact ⟨rfl, rfl, rfl⟩
  · by_cases h : payload.SecretWaterPassword = "KUARHODRON"
    · simp [api.Kuarhodron, h, api.fixedReardForSecretTask]
    · simp [api.Kuarhodron, h]
  · intro h
    simp [api.Kuarhodron, h, api.fixedReardForSecretTask]

/-- The bodies of the test, `wrong` and the empty password, for the id 2 of account B: nothing
is written and nothing is called; with `KUARHODRON` the handler calls `completeTask` with
10000 points and answers 202. -/
theorem Kuarhodron_wrong_password_witness :
    (api.Kuarhodron (api.tableRepository tableAB) "2"
        (Except.ok { SecretWaterPassword := "wrong" }) none
      = { result := { response := [], calls := [] }, completeTaskCalls := [] } ∧
    api.statusCode (api.Kuarhodron (api.tableRepository tableAB) "2"
        (Except.ok { SecretWaterPassword := "wrong" }) none).result.response = none ∧
    api.recordedCode (api.Kuarhodron (api.tableRepository tableAB) "2"
        (Except.ok { SecretWaterPassword := "wrong" }) none).result.response = 200) ∧
    (api.Kuarhodron (api.tableRepository tableAB) "2"
        (Except.ok { SecretWaterPassword := "" }) none
      = { result := { response := [], calls := [] }, completeTaskCalls := [] } ∧
    api.statusCode (api.Kuarhodron (api.tableRepository tableAB) "2"
        (Except.ok { SecretWaterPassword := "" }) none).result.response = none ∧
    api.recordedCode (api.Kuarhodron (api.tableRepository tableAB) "2"
        (Except.ok { SecretWaterPassword := "" }) none).result.response = 200) ∧
    (api.Kuarhodron (api.tableRepository tableAB) "2"
        (Except.ok { SecretWaterPassword := "KUARHODRON" }) none).completeTaskCalls
      = [10000] ∧
    (api.Kuarhodron (api.tableRepository tableAB) "2"
        (Except.ok { SecretWaterPassword := "KUARHODRON" }) none).result.calls
      = [api.RepoCall.AddPoints 2 10000] ∧
    api.statusCode (api.Kuarhodron (api.tableRepository tableAB) "2"
        (Except.ok { SecretWaterPassword := "KUARHODRON" }) none).result.response
      = some 202 :=
  ⟨(Kuarhodron_wrong_password (api.tableRepository tableAB) "2"
      { SecretWaterPassword := "wrong" } none).1 (by decide),
   (Kuarhodron_wrong_password (api.tableRepository tableAB) "2"
      { SecretWaterPassword := "" } none).1 (by decide),
   by rfl, by rfl, by rfl⟩

/-- C22: for a valid id in the URL and a body whose referrer is the empty string, when
`RedeemReferrer` of the repository returns nil and the response can be written, the handler
`redeemReferrer` answers 202 with the message `Referrer redeemed`, not 400: it passes the
empty referrer to the repository as it is.  For every referrer, the handler answers 400 with
`ErrRedeemReferrer` when `RedeemReferrer` returns an error, and its status is 202 only when
`RedeemReferrer` returned nil. -/
theorem redeemReferrer_empty_referrer (repo : api.Repository) (idStr : String) (id : Int)
    (writeFault : Option GoError) (hid : strconv.Atoi idStr = Except.ok id) :
    (repo.RedeemReferrer id "" = none →
      api.redeemReferrer repo idStr (Except.ok { Referrer := "" }) none
        = { response := [{ status := 202, body := api.Body.message "Referrer redeemed" }],
            calls := [api.RepoCall.RedeemReferrer id ""] } ∧
      api.statusCode (api.redeemReferrer repo idStr (Except.ok { Referrer := "" }) none).response
        = some 202) ∧
    (∀ referrer err, repo.RedeemReferrer id referrer = some err →
      api.redeemReferrer repo idStr (Except.ok { Referrer := referrer }) writeFault
        = { response := [{ status := 400, body := api.Body.error api.ErrRedeemReferrer }],
            calls := [api.RepoCall.RedeemReferrer id referrer] }) ∧
    (∀ referrer,
      api.statusCode
          (api.redeemReferrer repo idStr (Except.ok { Referrer := referrer }) writeFault).response
        = some 202 →
      repo.RedeemReferrer id referrer = none) := by
  refine ⟨?_, ?_, ?_⟩
  · intro hrepo
    have h1 : api.redeemReferrer repo idStr (Except.ok { Referrer := "" }) none
        = { response := [{ status := 202, body := api.Body.message "Referrer redeemed" }],
            calls := [api.RepoCall.RedeemReferrer id ""] } := by
      simp [api.redeemReferrer, api.getIDFromRequest, hid, hrepo, api.writeJSON,
        api.StatusAccepted]
    rw [h1]
    exact ⟨rfl, rfl⟩
  · intro referrer err hrepo
    simp [api.redeemReferrer, api.getIDFromRequest, hid, hrepo, api.errorJSON,
      api.StatusBadRequest]
  · intro referrer h202
    cases hrepo : repo.RedeemReferrer id referrer with
    | none => rfl
    | some err =>
      simp [api.redeemReferrer, api.getIDFromRequest, hid, hrepo, api.errorJSON,
        api.StatusBadRequest, api.statusCode] at h202

/-- The failing run of C22: account B (id 2, code `ref-B`) redeems the empty referrer in a
table where account D has no code; the repository credits D with 100 and B with 25 and the
handler answers 202.  Redeeming its own code `ref-B`, B is answered 400. -/
theorem redeemReferrer_empty_referrer_witness :
    (RedeemReferrer noFault [userB, userD] 2 "").2 = none ∧
    (RedeemReferrer noFault [userB, userD] 2 "").1.map User.Score = [25, 100] ∧
    (api.redeemReferrer (api.tableRepository [userB, userD]) "2"
        (Except.ok { Referrer := "" }) none
      = { response := [{ status := 202, body := api.Body.message "Referrer redeemed" }],
          calls := [api.RepoCall.RedeemReferrer 2 ""] } ∧
    api.statusCode (api.redeemReferrer (api.tableRepository [userB, userD]) "2"
        (Except.ok { Referrer := "" }) none).response = some 202) ∧
    api.redeemReferrer (api.tableRepository [userB, userD]) "2"
        (Except.ok { Referrer := "ref-B" }) none
      = { response := [{ status := 400, body := api.Body.error api.ErrRedeemReferrer }],
          calls := [api.RepoCall.RedeemReferrer 2 "ref-B"] } :=
  ⟨by decide, by decide,
   (redeemReferrer_empty_referrer (api.tableRepository [userB, userD]) "2" 2 none rfl).1
     (by decide),
   by rfl⟩

/-! ### Authentication outcomes -/

/-- C23: for a decoded credential pair, `Authenticate` answers 400 with `ErrUserNotExist` and
sets no cookie when `EmailCheck` returns an error; it answers 400 with `ErrInvalidPassword` and
sets no cookie when `PasswordMatches` returns false or an error; and when its status is 202,
`EmailCheck` returned a user with a nil error, `PasswordMatches` returned `(true, nil)` and the
cookie `accessToken` is set. -/
theorem Authenticate_outcomes (hmac : jwt.Hmac) (random : Except GoError (List Nat))
    (generate : String → Nat → Except GoError (List Nat))
    (compare : List Nat → String → Option GoError) (secretKey : String) (now cookieNow : Nat)
    (repo : api.Repository) (payload : api.AuthenticatePayload) (writeFault : Option GoError) :
    (∀ user err, repo.EmailCheck payload.Email = (user, some err) →
      (api.Authenticate hmac random generate compare secretKey now cookieNow repo
          (Except.ok payload) writeFault).response
        = [{ status := 400, body := api.Body.error api.ErrUserNotExist }] ∧
      (api.Authenticate hmac random generate compare secretKey now cookieNow repo
          (Except.ok payload) writeFault).cookies = []) ∧
    (∀ user valid perr, repo.EmailCheck payload.Email = (some user, none) →
      repo.PasswordMatches payload.Password user = (valid, perr) →
      (valid = false ∨ perr ≠ none) →
      (api.Authenticate hmac random generate compare secretKey now cookieNow repo
          (Except.ok payload) writeFault).response
        = [{ status := 400, body := api.Body.error api.ErrInvalidPassword }] ∧
      (api.Authenticate hmac random generate compare secretKey now cookieNow repo
          (Except.ok payload) writeFault).cookies = []) ∧
    (api.statusCode (api.Authenticate hmac random generate compare secretKey now cookieNow repo
          (Except.ok payload) writeFault).response = some 202 →
      ∃ user, repo.EmailCheck payload.Email = (some user, none) ∧
        repo.PasswordMatches payload.Password user = (true, none) ∧
        ∃ cookie ∈ (api.Authenticate hmac random generate compare secretKey now cookieNow repo
          (Except.ok payload) writeFault).cookies, cookie.Name = "accessToken") := by
  refine ⟨?_, ?_, ?_⟩
  · intro user err he
    simp [api.Authenticate, he, api.errorJSON, api.StatusBadRequest]
  · intro user valid perr he hp hbad
    have hcond : (perr.isSome || !valid) = true := by
      rcases hbad with h | h
      · simp [h]
      · cases perr with
        | none => exact absurd rfl h
        | some e => simp
    simp [api.Authenticate, he, hp, hcond, api.errorJSON, api.StatusBadRequest]
  · intro h202
    rcases he : repo.EmailCheck payload.Email with ⟨ouser, oerr⟩
    cases oerr with
    | some err =>
      simp [api.Authenticate, he, api.errorJSON, api.StatusBadRequest, api.statusCode] at h202
    | none =>
      cases ouser with
      | none => simp [api.Authenticate, he, api.statusCode] at h202
      | some user =>
        rcases hp : repo.PasswordMatches payload.Password user with ⟨valid, perr⟩
        by_cases hcond : (perr.isSome || !valid) = true
        · simp [api.Authenticate, he, hp, hcond, api.errorJSON, api.StatusBadRequest,
            api.statusCode] at h202
        · have hv : valid = true := by
            cases valid with
            | true => rfl
            | false => simp at hcond
          have hpe : perr = none := by
            cases perr with
            | none => rfl
            | some e => simp at hcond
          subst hv
          subst hpe
          refine ⟨user, rfl, hp, ?_⟩
          cases hg : api.generateTokens hmac now random generate user.ID secretKey with
          | error err =>
            simp [api.Authenticate, he, hp, hg, api.errorJSON, api.StatusInternalServerError,
              api.statusCode] at h202
          | ok userData =>
            cases hvr : api.validateRefreshToken compare userData.HashedRefreshToken
                userData.RefreshToken with
            | some err =>
              simp [api.Authenticate, he, hp, hg, hvr, api.errorJSON,
                api.StatusInternalServerError, api.statusCode] at h202
            | none =>
              cases writeFault with
              | some werr =>
                simp [api.Authenticate, he, hp, hg, hvr, api.writeJSON, api.errorJSON,
                  api.StatusBadRequest, api.statusCode] at h202
              | none =>
                simp [api.Authenticate, he, hp, hg, hvr, api.writeJSON]

/-- The cases of the test over the table of accounts A and C: an unknown email is answered 400
with `ErrUserNotExist` and a wrong password 400 with `ErrInvalidPassword`, both without a
cookie; the email and password of C are answered 202. -/
theorem Authenticate_outcomes_witness :
    ((api.Authenticate api.sampleHmac (Except.ok api.sampleRandom) api.sampleGenerate
          api.sampleCompare "test_secret_key" 1000 1000 (api.tableRepository [userA, userC])
          (Except.ok { Email := "nonexistent@example.com", Password := "correct_password" })
          none).response
        = [{ status := 400, body := api.Body.error api.ErrUserNotExist }] ∧
      (api.Authenticate api.sampleHmac (Except.ok api.sampleRandom) api.sampleGenerate
          api.sampleCompare "test_secret_key" 1000 1000 (api.tableRepository [userA, userC])
          (Except.ok { Email := "nonexistent@example.com", Password := "correct_password" })
          none).cookies = []) ∧
    ((api.Authenticate api.sampleHmac (Except.ok api.sampleRandom) api.sampleGenerate
          api.sampleCompare "test_secret_key" 1000 1000 (api.tableRepository [userA, userC])
          (Except.ok { Email := "test@example.com", Password := "wrong_password" })
          none).response
        = [{ status := 400, body := api.Body.error api.ErrInvalidPassword }] ∧
      (api.Authenticate api.sampleHmac (Except.ok api.sampleRandom) api.sampleGenerate
          api.sampleCompare "test_secret_key" 1000 1000 (api.tableRepository [userA, userC])
          (Except.ok { Email := "test@example.com", Password := "wrong_password" })
          none).cookies = []) ∧
    api.statusCode (api.Authenticate api.sampleHmac (Except.ok api.sampleRandom)
        api.sampleGenerate api.sampleCompare "test_secret_key" 1000 1000
        (api.tableRepository [userA, userC])
        (Except.ok { Email := "test@example.com", Password := "correct_password" })
        none).response = some 202 ∧
    ∃ user, (api.tableRepository [userA, userC]).EmailCheck "test@example.com"
        = (some user, none) ∧
      (api.tableRepository [userA, userC]).PasswordMatches "correct_password" user
        = (true, none) ∧
      ∃ cookie ∈ (api.Authenticate api.sampleHmac (Except.ok api.sampleRandom)
          api.sampleGenerate api.sampleCompare "test_secret_key" 1000 1000
          (api.tableRepository [userA, userC])
          (Except.ok { Email := "test@example.com", Password := "correct_password" })
          none).cookies, cookie.Name = "accessToken" :=
  ⟨(Authenticate_outcomes api.sampleHmac (Except.ok api.sampleRandom) api.sampleGenerate
      api.sampleCompare "test_secret_key" 1000 1000 (api.tableRepository [userA, userC])
      { Email := "nonexistent@example.com", Password := "correct_password" } none).1
      none (fmtErrorf "User with that email does not exists: %w" none) rfl,
   (Authenticate_outcomes api.sampleHmac (Except.ok api.sampleRandom) api.sampleGenerate
      api.sampleCompare "test_secret_key" 1000 1000 (api.tableRepository [userA, userC])
      { Email := "test@example.com", Password := "wrong_password" } none).2.1
      { zeroUser with FirstName := "Test", Password := "hash:correct_password" }
      false none rfl rfl (Or.inl rfl),
   by rfl,
   (Authenticate_outcomes api.sampleHmac (Except.ok api.sampleRandom) api.sampleGenerate
      api.sampleCompare "test_secret_key" 1000 1000 (api.tableRepository [userA, userC])
      { Email := "test@example.com", Password := "correct_password" } none).2.2 (by rfl)⟩

/-! ### The middleware and the signing algorithm -/

/-- C24: a token with claims `sub = userID` and `exp` that names the algorithm `HS256` or
`HS384` and is signed with `secretKey` under that algorithm is passed to the next handler by
`authTokenMiddleware` at every time up to `exp`, with the subject `userID`: the key function
of the middleware never looks at the algorithm.  A token that names the algorithm `none` is
answered with 401. -/
theorem authTokenMiddleware_accepts_other_HMAC (hmac : jwt.Hmac) (secretKey : String)
    (now exp : Nat) (userID : Int) (alg : String)
    (halg : alg = "HS256" ∨ alg = "HS384")
    (hid : userID.natAbs < 2 ^ 53) (hexp : exp < 2 ^ 53) (hpos : 0 < exp) (hnow : now ≤ exp) :
    api.authTokenMiddleware hmac secretKey now
      (some (jwt.TokenString.compact
        { alg := some alg,
          claims := [("sub", jwt.Value.number userID), ("exp", jwt.Value.number (exp : Int))],
          signature := hmac alg secretKey
            (some alg,
              [("sub", jwt.Value.number userID), ("exp", jwt.Value.number (exp : Int))]) }))
      = api.AuthOutcome.next userID ∧
    ∀ (claims : jwt.MapClaims) (signature : String),
      api.authTokenMiddleware hmac secretKey now
        (some (jwt.TokenString.compact
          { alg := some "none", claims := claims, signature := signature }))
        = api.AuthOutcome.unauthorized (some jwt.NoneSignatureTypeDisallowedError) := by
  have hf1 : jwt.float64 userID = userID := float64_of_small userID hid
  have hf2 : jwt.float64 (exp : Int) = (exp : Int) :=
    float64_of_small (exp : Int) (by simpa using hexp)
  have hne : ((exp : Nat) : Int) ≠ 0 := by omega
  have hle : ((now : Nat) : Int) ≤ ((exp : Nat) : Int) := by omega
  refine ⟨?_, ?_⟩
  · rcases halg with h | h
    · subst h
      simp [api.authTokenMiddleware, jwt.ParseWithClaims, jwt.GetSigningMethod,
        jwt.Method.Verify, jwt.MapClaims.Valid, jwt.MapClaims.VerifyExpiresAt,
        jwt.MapClaims.VerifyIssuedAt, jwt.MapClaims.VerifyNotBefore, jwt.verifyTimeClaim,
        jwt.verifyExp, List.lookup, hf1, hf2, hne, hle]
    · subst h
      simp [api.authTokenMiddleware, jwt.ParseWithClaims, jwt.GetSigningMethod,
        jwt.Method.Verify, jwt.MapClaims.Valid, jwt.MapClaims.VerifyExpiresAt,
        jwt.MapClaims.VerifyIssuedAt, jwt.MapClaims.VerifyNotBefore, jwt.verifyTimeClaim,
        jwt.verifyExp, List.lookup, hf1, hf2, hne, hle]
  · intro claims signature
    simp [api.authTokenMiddleware, jwt.ParseWithClaims, jwt.GetSigningMethod,
      jwt.Method.Verify]

/-- User 7 at time 1000: the token that `generateAccessToken` issues under `HS512`, and the
tokens with the same claims signed with the same secret under `HS256` and under `HS384`, are
all three passed on by the middleware at time 1500; the token that names `none` is refused. -/
theorem authTokenMiddleware_accepts_other_HMAC_witness :
    (api.authTokenMiddleware api.sampleHmac "secret" 1500
      (some (jwt.TokenString.compact
        { alg := some "HS256",
          claims := [("sub", jwt.Value.number 7), ("exp", jwt.Value.number ((1900 : Nat) : Int))],
          signature := api.sampleHmac "HS256" "secret"
            (some "HS256",
              [("sub", jwt.Value.number 7), ("exp", jwt.Value.number ((1900 : Nat) : Int))]) }))
      = api.AuthOutcome.next 7 ∧
    ∀ (claims : jwt.MapClaims) (signature : String),
      api.authTokenMiddleware api.sampleHmac "secret" 1500
        (some (jwt.TokenString.compact
          { alg := some "none", claims := claims, signature := signature }))
        = api.AuthOutcome.unauthorized (some jwt.NoneSignatureTypeDisallowedError)) ∧
    api.authTokenMiddleware api.sampleHmac "secret" 1500
      (some (jwt.TokenString.compact
        { alg := some "HS384",
          claims := [("sub", jwt.Value.number 7), ("exp", jwt.Value.number 1900)],
          signature := "HS384:secret" }))
      = api.AuthOutcome.next 7 ∧
    (api.generateAccessToken api.sampleHmac 1000 7 "secret").toOption.map
        (fun tok => api.authTokenMiddleware api.sampleHmac "secret" 1500 (some tok))
      = some (api.AuthOutcome.next 7) :=
  ⟨authTokenMiddleware_accepts_other_HMAC api.sampleHmac "secret" 1500 1900 7 "HS256"
      (Or.inl rfl) (by decide) (by decide) (by decide) (by decide),
   by decide, by decide⟩

/-! ### Repeated redemption -/

/-- A call of `RedeemReferrer` that returns nil found the code and the user, read for the user
a code other than the redeemed one, and ran both credits. -/
theorem RedeemReferrer_ok_inv (fault : Faults) (t : Table) (u : Int) (c : String)
    (h : (RedeemReferrer fault t u c).2 = none) :
    (∃ r ∈ t, r.Referrer = c) ∧
    (∃ r0, t.find? (fun r => r.ID == u) = some r0 ∧ r0.Referrer ≠ c) ∧
    (RedeemReferrer fault t u c).1 = updateRedeemerScore u (updateReferrerScore c t) := by
  cases h0 : fault 0 with
  | some e => simp [RedeemReferrer, h0] at h
  | none =>
    cases e1 : existsReferrer t c with
    | false => simp [RedeemReferrer, h0, e1, fmtErrorf] at h
    | true =>
      cases h1 : fault 1 with
      | some e => simp [RedeemReferrer, h0, e1, h1, UserExists] at h
      | none =>
        cases e2 : existsID t u with
        | false => simp [RedeemReferrer, h0, e1, h1, e2, UserExists, fmtErrorf] at h
        | true =>
          cases h2 : fault 2 with
          | some e =>
            simp [RedeemReferrer, h0, e1, h1, e2, h2, UserExists, selectReferrer] at h
          | none =>
            cases hf : t.find? (fun r => r.ID == u) with
            | none =>
              simp [RedeemReferrer, h0, e1, h1, e2, h2, UserExists, selectReferrer, hf] at h
            | some r0 =>
              by_cases hs : r0.Referrer = c
              · simp [RedeemReferrer, h0, e1, h1, e2, h2, UserExists, selectReferrer, hf, hs,
                  fmtErrorf] at h
              · cases h3 : fault 3 with
                | some e =>
                  simp [RedeemReferrer, h0, e1, h1, e2, h2, h3, UserExists, selectReferrer, hf,
                    hs, execQuery] at h
                | none =>
                  cases h4 : fault 4 with
                  | some e =>
                    simp [RedeemReferrer, h0, e1, h1, e2, h2, h3, h4, UserExists,
                      selectReferrer, hf, hs, execQuery] at h
                  | none =>
                    refine ⟨(existsReferrer_iff t c).1 e1, ⟨r0, rfl, hs⟩, ?_⟩
                    simp [RedeemReferrer, h0, e1, h1, e2, h2, h3, h4, UserExists,
                      selectReferrer, hf, hs, execQuery]

/-- With ids that are pairwise distinct, a call of `RedeemReferrer` that returns nil was made
for a user none of whose rows carries the redeemed code. -/
theorem RedeemReferrer_ok_ne (fault : Faults) (t : Table) (u : Int) (c : String)
    (hid : (t.map User.ID).Nodup) (h : (RedeemReferrer fault t u c).2 = none) :
    (∃ r ∈ t, r.ID = u) ∧ ∀ r ∈ t, r.ID = u → r.Referrer ≠ c := by
  obtain ⟨_, ⟨r0, hf, hs⟩, _⟩ := RedeemReferrer_ok_inv fault t u c h
  have h0 := find_id_spec t u r0 hf
  refine ⟨⟨r0, h0.1, h0.2⟩, ?_⟩
  intro r hr hru
  have : r = r0 := List.inj_on_of_nodup_map hid hr h0.1 (hru.trans h0.2.symm)
  rw [this]
  exact hs

/-- C25: in a table whose ids are pairwise distinct, when `RedeemReferrer u c` has returned nil
and no statement of a second `RedeemReferrer u c` fails, the second call returns nil as well;
row by row, the table after both calls differs from the table before the first in scores only,
every account with code `c` has gained exactly 200, `u` has gained exactly 50 and every other
score is as before. -/
theorem RedeemReferrer_twice (fault1 fault2 : Faults) (t : Table) (u : Int) (c : String)
    (hid : (t.map User.ID).Nodup)
    (hfirst : (RedeemReferrer fault1 t u c).2 = none)
    (hfault : ∀ k, fault2 k = none) :
    (RedeemReferrer fault2 (RedeemReferrer fault1 t u c).1 u c).2 = none ∧
    List.Forall₂ (fun r r' =>
        r' = { r with Score := r'.Score } ∧
        (r.Referrer = c → r'.Score = r.Score + 200) ∧
        (r.ID = u → r'.Score = r.Score + 50) ∧
        (r.Referrer ≠ c → r.ID ≠ u → r'.Score = r.Score))
      t (RedeemReferrer fault2 (RedeemReferrer fault1 t u c).1 u c).1 := by
  obtain ⟨hc, _, h1⟩ := RedeemReferrer_ok_inv fault1 t u c hfirst
  obtain ⟨hu, hne⟩ := RedeemReferrer_ok_ne fault1 t u c hid hfirst
  rw [h1]
  have hc1 : ∃ r ∈ updateRedeemerScore u (updateReferrerScore c t), r.Referrer = c := by
    obtain ⟨r, hr, hrc⟩ := hc
    have hru : r.ID ≠ u := fun h => hne r hr h hrc
    refine ⟨{ r with Score := r.Score + 100 }, ?_, hrc⟩
    simp only [updateRedeemerScore, updateReferrerScore, List.map_map, List.mem_map]
    exact ⟨r, hr, by simp [hrc, hru]⟩
  have hu1 : ∃ r ∈ updateRedeemerScore u (updateReferrerScore c t), r.ID = u := by
    obtain ⟨r, hr, hru⟩ := hu
    have hrc : r.Referrer ≠ c := hne r hr hru
    refine ⟨{ r with Score := r.Score + 25 }, ?_, hru⟩
    simp only [updateRedeemerScore, updateReferrerScore, List.map_map, List.mem_map]
    exact ⟨r, hr, by simp [hrc, hru]⟩
  have hne1 : ∀ r ∈ updateRedeemerScore u (updateReferrerScore c t),
      r.ID = u → r.Referrer ≠ c := by
    intro r' hr'
    simp only [updateRedeemerScore, updateReferrerScore, List.map_map, List.mem_map] at hr'
    obtain ⟨r, hr, rfl⟩ := hr'
    by_cases hrc : r.Referrer = c
    · have hru : r.ID ≠ u := fun h => hne r hr h hrc
      simp [hrc, hru]
    · by_cases hru : r.ID = u <;> simp [hrc, hru]
  rw [RedeemReferrer_eq_of_ok fault2 _ u c hfault hc1 hu1 hne1]
  refine ⟨rfl, ?_⟩
  simp only [updateRedeemerScore, updateReferrerScore, List.map_map]
  rw [List.forall₂_map_right_iff, List.forall₂_same]
  intro r hr
  by_cases hrc : r.Referrer = c
  · have hru : r.ID ≠ u := fun h => hne r hr h hrc
    simp [hrc, hru]
    omega
  · by_cases hru : r.ID = u
    · simp [hrc, hru]
      omega
    · simp [hrc, hru]

/-- Account B redeeming the code `ref-A` of account A twice: both calls return nil, and A ends
with 200, B with 50. -/
theorem RedeemReferrer_twice_witness :
    ((RedeemReferrer noFault (RedeemReferrer noFault tableAB 2 "ref-A").1 2 "ref-A").2 = none ∧
      List.Forall₂ (fun r r' =>
          r' = { r with Score := r'.Score } ∧
          (r.Referrer = "ref-A" → r'.Score = r.Score + 200) ∧
          (r.ID = 2 → r'.Score = r.Score + 50) ∧
          (r.Referrer ≠ "ref-A" → r.ID ≠ 2 → r'.Score = r.Score))
        tableAB (RedeemReferrer noFault (RedeemReferrer noFault tableAB 2 "ref-A").1 2 "ref-A").1) ∧
    tableAB.map User.Score = [0, 0] ∧
    (RedeemReferrer noFault (RedeemReferrer noFault tableAB 2 "ref-A").1 2 "ref-A").1.map
      User.Score = [200, 50] :=
  ⟨RedeemReferrer_twice noFault noFault tableAB 2 "ref-A" (by decide) (by decide)
    (fun _ => rfl), by decide, by decide⟩

/-! ### The credits of a redemption and the ledger -/

/-- With every statement succeeding, the table after `AddPoints` is the table after its
update, also for an id that no row carries. -/
theorem AddPoints_noFault_table (now : Nat) (t : Table) (id point : Int) :
    (AddPoints noFault now t id point).1 = updateAddPoints point now id t := by
  cases he : existsID t id with
  | true => simp [AddPoints, noFault, UserExists, execQuery, he]
  | false =>
    have hne : ∀ r ∈ t, r.ID ≠ id := by
      intro r hr hrid
      have := (existsID_iff t id).2 ⟨r, hr, hrid⟩
      rw [he] at this
      exact Bool.noConfusion this
    have hmap : updateAddPoints point now id t = t := by
      unfold updateAddPoints
      conv_rhs => rw [← List.map_id t]
      apply List.map_congr_left
      intro r hr
      simp [hne r hr]
    simp [AddPoints, noFault, UserExists, he, hmap]

/-- Crediting the ids of a duplicate-free list one after the other credits every row whose id
is in the list once. -/
theorem foldl_AddPoints (now : Nat) (point : Int) (ids : List Int) (hnd : ids.Nodup)
    (t : Table) :
    ids.foldl (fun tbl r => (AddPoints noFault now tbl r point).1) t
      = t.map (fun r =>
          if r.ID ∈ ids then { r with Score := r.Score + point, UpdatedAt := now } else r) := by
  induction ids generalizing t with
  | nil => simp
  | cons a ids ih =>
    rw [List.nodup_cons] at hnd
    rw [List.foldl_cons, ih hnd.2, AddPoints_noFault_table]
    unfold updateAddPoints
    rw [List.map_map]
    apply List.map_congr_left
    intro r _
    by_cases hra : r.ID = a
    · have hnot : ¬ a ∈ ids := hnd.1
      simp [hra, hnot]
    · simp [hra]

/-- The ids of the accounts with a given code are pairwise distinct when the ids of the table
are. -/
theorem referrerIDs_nodup (t : Table) (c : String) (hid : (t.map User.ID).Nodup) :
    (referrerIDs t c).Nodup :=
  List.Nodup.sublist (List.Sublist.map User.ID (List.filter_sublist t)) hid

/-- In a table with pairwise distinct ids, the id of a row is among the ids of the accounts with
code `c` exactly when the row carries `c`. -/
theorem mem_referrerIDs (t : Table) (c : String) (hid : (t.map User.ID).Nodup) (r : User)
    (hr : r ∈ t) : r.ID ∈ referrerIDs t c ↔ r.Referrer = c := by
  constructor
  · intro h
    simp only [referrerIDs, List.mem_map, List.mem_filter] at h
    obtain ⟨r', ⟨hr', hc⟩, hidr⟩ := h
    have : r' = r := List.inj_on_of_nodup_map hid hr' hr hidr
    rw [← this]
    simpa using hc
  · intro h
    simp only [referrerIDs, List.mem_map, List.mem_filter]
    exact ⟨r, ⟨hr, by simpa using h⟩, rfl⟩

/-- In a table with pairwise distinct ids, the ledger credits every account with code `c` with
100 and then the account `u` with 25, and stamps each credited row with the clock reading. -/
theorem ledgerRedeem_eq (now : Nat) (t : Table) (u : Int) (c : String)
    (hid : (t.map User.ID).Nodup) :
    ledgerRedeem now t u c
      = updateAddPoints 25 now u (t.map (fun r =>
          if r.Referrer = c then { r with Score := r.Score + 100, UpdatedAt := now } else r)) := by
  unfold ledgerRedeem
  rw [AddPoints_noFault_table, foldl_AddPoints now 100 _ (referrerIDs_nodup t c hid)]
  congr 1
  apply List.map_congr_left
  intro r hr
  by_cases hrc : r.Referrer = c
  · have := (mem_referrerIDs t c hid r hr).2 hrc
    simp [hrc, this]
  · have : ¬ r.ID ∈ referrerIDs t c := fun h => hrc ((mem_referrerIDs t c hid r hr).1 h)
    simp [hrc, this]

/-- C26: in a table whose ids are pairwise distinct, when `RedeemReferrer u c` returns nil, its
table agrees row by row with the table of the ledger credits (`AddPoints` of 100 for every
account with code `c`, then `AddPoints` of 25 for `u`, at the clock reading `now`) on every
field but the update timestamp, so on the score; but `RedeemReferrer` leaves every update
timestamp as it was, while the ledger stamps the rows it credits with `now`: when the clock has
moved past the stored timestamps the two tables differ on the update timestamp. -/
theorem RedeemReferrer_ledger_timestamp (fault : Faults) (now : Nat) (t : Table) (u : Int)
    (c : String) (hid : (t.map User.ID).Nodup)
    (hok : (RedeemReferrer fault t u c).2 = none) :
    List.Forall₂ (fun r l => r = { l with UpdatedAt := r.UpdatedAt })
      (RedeemReferrer fault t u c).1 (ledgerRedeem now t u c) ∧
    (RedeemReferrer fault t u c).1.map User.Score = (ledgerRedeem now t u c).map User.Score ∧
    (RedeemReferrer fault t u c).1.map User.UpdatedAt = t.map User.UpdatedAt ∧
    List.Forall₂ (fun r l => (r.Referrer = c ∨ r.ID = u) → l.UpdatedAt = now)
      t (ledgerRedeem now t u c) ∧
    ((∀ r ∈ t, r.UpdatedAt < now) →
      (RedeemReferrer fault t u c).1.map User.UpdatedAt
        ≠ (ledgerRedeem now t u c).map User.UpdatedAt) := by
  obtain ⟨_, _, h1⟩ := RedeemReferrer_ok_inv fault t u c hok
  obtain ⟨hu, hne⟩ := RedeemReferrer_ok_ne fault t u c hid hok
  rw [h1, ledgerRedeem_eq now t u c hid]
  simp only [updateRedeemerScore, updateReferrerScore, updateAddPoints, List.map_map]
  refine ⟨?_, ?_, ?_, ?_, ?_⟩
  · rw [List.forall₂_map_left_iff, List.forall₂_map_right_iff, List.forall₂_same]
    intro r hr
    by_cases hrc : r.Referrer = c
    · have hru : r.ID ≠ u := fun h => hne r hr h hrc
      simp [hrc, hru]
    · by_cases hru : r.ID = u <;> simp [hrc, hru]
  · apply List.map_congr_left
    intro r hr
    by_cases hrc : r.Referrer = c
    · have hru : r.ID ≠ u := fun h => hne r hr h hrc
      simp [hrc, hru]
    · by_cases hru : r.ID = u <;> simp [hrc, hru]
  · apply List.map_congr_left
    intro r hr
    by_cases hrc : r.Referrer = c
    · have hru : r.ID ≠ u := fun h => hne r hr h hrc
      simp [hrc, hru]
    · by_cases hru : r.ID = u <;> simp [hrc, hru]
  · rw [List.forall₂_map_right_iff, List.forall₂_same]
    intro r hr htouched
    by_cases hrc : r.Referrer = c
    · have hru : r.ID ≠ u := fun h => hne r hr h hrc
      simp [hrc, hru]
    · have hru : r.ID = u := by
        rcases htouched with h | h
        · exact absurd h hrc
        · exact h
      simp [hrc, hru]
  · intro hlt heq
    obtain ⟨r, hr, hru⟩ := hu
    have hrc : r.Referrer ≠ c := hne r hr hru
    have := (List.map_inj_left.1 heq) r hr
    simp [hrc, hru] at this
    have := hlt r hr
    omega

/-- Account B redeeming the code `ref-A` of account A, compared with the ledger credits at the
clock reading 7: the scores are 100 and 25 in both tables; the update timestamps stay 0 and 0
after `RedeemReferrer` and are 7 and 7 after the ledger credits. -/
theorem RedeemReferrer_ledger_timestamp_witness :
    (List.Forall₂ (fun r l => r = { l with UpdatedAt := r.UpdatedAt })
      (RedeemReferrer noFault tableAB 2 "ref-A").1 (ledgerRedeem 7 tableAB 2 "ref-A") ∧
    (RedeemReferrer noFault tableAB 2 "ref-A").1.map User.Score
      = (ledgerRedeem 7 tableAB 2 "ref-A").map User.Score ∧
    (RedeemReferrer noFault tableAB 2 "ref-A").1.map User.UpdatedAt
      = tableAB.map User.UpdatedAt ∧
    List.Forall₂ (fun r l => (r.Referrer = "ref-A" ∨ r.ID = 2) → l.UpdatedAt = 7)
      tableAB (ledgerRedeem 7 tableAB 2 "ref-A") ∧
    ((∀ r ∈ tableAB, r.UpdatedAt < 7) →
      (RedeemReferrer noFault tableAB 2 "ref-A").1.map User.UpdatedAt
        ≠ (ledgerRedeem 7 tableAB 2 "ref-A").map User.UpdatedAt)) ∧
    (RedeemReferrer noFault tableAB 2 "ref-A").1.map User.Score = [100, 25] ∧
    (ledgerRedeem 7 tableAB 2 "ref-A").map User.Score = [100, 25] ∧
    (RedeemReferrer noFault tableAB 2 "ref-A").1.map User.UpdatedAt = [0, 0] ∧
    (ledgerRedeem 7 tableAB 2 "ref-A").map User.UpdatedAt = [7, 7] :=
  ⟨RedeemReferrer_ledger_timestamp noFault 7 tableAB 2 "ref-A" (by decide) (by decide),
   by decide, by decide, by decide, by decide⟩

end RewardService
